import Mathlib

/-!
Verification development for the clite repository: shallow embedding of the
two HTTP client classes (SunoApi from packages/suno/src/index.ts and FakeYou
from packages/fakeyou/src/index.ts) as state-passing functions over scripted
network responses, together with theorems settling the frozen claims.

Network I/O is modelled by an oracle: a function from a request counter to
the scripted response the remote service returns for that request.  Wall
clock time advances only at the explicit sleep calls; the randomized sleep
durations draw from a second oracle stream.  Every request issued is
recorded in an event trace so that claims about "which requests happen and
in what order" are statable.
-/

namespace Clite

/-- Generic outcome of running a client computation: either a value or a
thrown error, in both cases together with the final context (state, trace,
oracle counters).  This mirrors a JS async method that either resolves or
rejects, with the instance state and the observable effects at that point. -/
inductive RRes (ε σ α : Type) where
  | ok (a : α) (c : σ)
  | err (e : ε) (c : σ)
deriving Repr

/-- Client computation: state-passing with short-circuiting errors (the
shallow embedding of an async method body). -/
def CM (ε σ α : Type) : Type := σ → RRes ε σ α

def CM.pure (a : α) : CM ε σ α := fun c => .ok a c

def CM.bind (x : CM ε σ α) (f : α → CM ε σ β) : CM ε σ β := fun c =>
  match x c with
  | .ok a c' => f a c'
  | .err e c' => .err e c'

instance : Monad (CM ε σ) where
  pure := CM.pure
  bind := CM.bind

/-- Throwing a JS Error. -/
def CM.throw (e : ε) : CM ε σ α := fun c => .err e c

def CM.getCtx : CM ε σ σ := fun c => .ok c c

def CM.modifyCtx (f : σ → σ) : CM ε σ PUnit := fun c => .ok ⟨⟩ (f c)

/-- Final context of a run, whether it resolved or rejected. -/
def RRes.ctx : RRes ε σ α → σ
  | .ok _ c => c
  | .err _ c => c

end Clite

namespace Clite.Suno

/-- Credential state of a SunoApi instance: the three private fields
sid, currentToken and cookie (src/packages/suno/src/index.ts, lines 22-24). -/
structure SunoState where
  sid : Option String
  currentToken : Option String
  cookie : Option String
deriving DecidableEq, Repr

/-- Metadata object nested in a raw clip of the Suno feed/generate payloads. -/
structure ClipMetadata where
  prompt : Option String
  gpt_description_prompt : Option String
  type : Option String
  tags : Option String
  duration_formatted : Option String
  error_message : Option String
deriving DecidableEq, Repr

/-- Raw clip as returned by the remote service (the shape read by
generateSongs and get when normalizing). -/
structure RawClip where
  id : String
  title : Option String
  image_url : Option String
  audio_url : Option String
  video_url : Option String
  created_at : String
  model_name : String
  status : String
  metadata : ClipMetadata
deriving DecidableEq, Repr

/-- Normalized, service-agnostic record produced by SunoApi (AudioInfo in
src/unnamed/part_000). -/
structure AudioInfo where
  id : String
  title : Option String
  image_url : Option String
  lyric : Option String
  audio_url : Option String
  video_url : Option String
  created_at : String
  model_name : String
  gpt_description_prompt : Option String
  prompt : Option String
  status : String
  type : Option String
  tags : Option String
  duration : Option String
  error_message : Option String
deriving DecidableEq, Repr

/-- Scripted JSON body of one 2xx response from the remote service.  The
constructor httpError instead scripts a non-2xx status (res.ok false).
The shapes mirror what the TypeScript code reads out of the parsed JSON;
envelope scripts a body that only carries an application-level success
flag, and other scripts any JSON shape none of the accessors recognize. -/
inductive SunoResponse where
  | httpError
  | clerkClient (last_active_session_id : Option String)
  | clerkToken (jwt : String)
  | generateResp (clips : List RawClip)
  | feed (clips : List RawClip)
  | idResp (id : String)
  | lyricsJob (status : Option String) (ltitle ltext : Option String)
  | envelope (success : Bool)
  | other
deriving DecidableEq, Repr

/-- Trace event: an HTTP request to base/path, or a sleep of the given
number of milliseconds. -/
inductive SEv where
  | req (base : String) (path : String)
  | sleepEv (ms : Nat)
deriving DecidableEq, Repr

/-- Errors a SunoApi method can throw. fuelOut is a modelling artifact for
the unbounded recursion of the polling loops and is proved unreachable in
the claims that involve them. -/
inductive SErr where
  | fetchFailed (path : String)
  | sessionNotSet
  | getSessionFailed
  | typeError
  | fuelOut
deriving DecidableEq, Repr

/-- Execution context: instance state, position in the response script,
position in the random stream, current wall-clock time in ms, and the
event trace so far. -/
structure SCtx where
  st : SunoState
  scriptIdx : Nat
  randIdx : Nat
  now : Nat
  trace : List SEv
deriving DecidableEq, Repr

abbrev SunoM (α : Type) := CM SErr SCtx α

def BASE_URL : String := "https://studio-api.suno.ai"

def CLERK_BASE_URL : String := "https://clerk.suno.com"

/-- Path requested by keepAlive to renew the token (note the doubled equals
sign, faithfully kept from the source). -/
def tokensPath (sid : String) : String :=
  "/v1/client/sessions/" ++ sid ++ "/tokens?_clerk_js_version==4.73.2"

section Ops

variable (script : Nat → SunoResponse) (rand : Nat → Nat)

/-- Model of fetchSunoApi: records the request, consumes one scripted
response; a scripted non-2xx status throws (res.ok check), any 2xx body is
returned as parsed without further validation. -/
def fetchSunoApi (base path : String) : SunoM SunoResponse := fun c =>
  let r := script c.scriptIdx
  let c' := { c with scriptIdx := c.scriptIdx + 1, trace := c.trace ++ [.req base path] }
  match r with
  | .httpError => .err (.fetchFailed path) c'
  | r => .ok r c'

/-- Model of the private sleep helper: a fixed duration when the bounds
coincide, otherwise a duration drawn from the random stream, reduced into
the inclusive bound window exactly as the source formula does. -/
def sleepM (x y : Nat) : SunoM PUnit := fun c =>
  if x = y then
    .ok ⟨⟩ { c with now := c.now + x * 1000, trace := c.trace ++ [.sleepEv (x * 1000)] }
  else
    let lo := min x y
    let hi := max x y
    let d := (lo + rand c.randIdx % (hi - lo + 1)) * 1000
    .ok ⟨⟩ { c with randIdx := c.randIdx + 1, now := c.now + d,
                    trace := c.trace ++ [.sleepEv d] }

/-- Reading renewResponse.jwt: undefined unless the body is a Clerk token. -/
def jwtOf : SunoResponse → Option String
  | .clerkToken j => some j
  | _ => none

/-- Model of keepAlive: throws if no session id is stored, otherwise renews
the token against the Clerk endpoint, optionally waiting, then stores
whatever jwt field the response carried. -/
def keepAlive (isWait : Bool) : SunoM PUnit := do
  let c ← CM.getCtx
  match c.st.sid with
  | none => CM.throw .sessionNotSet
  | some sid => do
      let r ← fetchSunoApi script CLERK_BASE_URL (tokensPath sid)
      if isWait then sleepM rand 1 2 else pure ⟨⟩
      CM.modifyCtx fun c => { c with st := { c.st with currentToken := jwtOf r } }

/-- Model of deinit: clears cookie, sid and currentToken; no request. -/
def deinit : SunoM PUnit :=
  CM.modifyCtx fun c => { c with st := { sid := none, currentToken := none, cookie := none } }

end Ops

/-- Model of String.prototype.split with separator newline: every
occurrence of the separator cuts, and empty pieces are preserved. -/
def splitNl : List Char → List (List Char)
  | [] => [[]]
  | c :: rest =>
      match splitNl rest with
      | [] => [[]]
      | piece :: pieces =>
          if c = '\n' then [] :: piece :: pieces else (c :: piece) :: pieces

/-- Model of Array.prototype.join with separator newline. -/
def joinNl : List (List Char) → List Char
  | [] => []
  | [l] => l
  | l :: ls => l ++ '\n' :: joinNl ls

/-- A line that is empty after String.prototype.trim: every character of
it is whitespace. -/
def blankLine (l : List Char) : Bool := l.all Char.isWhitespace

/-- Model of the private parseLyrics helper: split on newline, drop lines
that are empty after trimming (blank lines), rejoin with newline. -/
def parseLyrics (prompt : String) : String :=
  ⟨joinNl ((splitNl prompt.data).filter fun line => !blankLine line)⟩

/-- Normalization used inside generateSongs on the immediate-return path
(wait_audio false): every field is copied from the raw clip, and lyric is
the raw metadata.prompt verbatim. -/
def normalizeGenClip (audio : RawClip) : AudioInfo :=
  { id := audio.id
    title := audio.title
    image_url := audio.image_url
    lyric := audio.metadata.prompt
    audio_url := audio.audio_url
    video_url := audio.video_url
    created_at := audio.created_at
    model_name := audio.model_name
    status := audio.status
    gpt_description_prompt := audio.metadata.gpt_description_prompt
    prompt := audio.metadata.prompt
    type := audio.metadata.type
    tags := audio.metadata.tags
    duration := audio.metadata.duration_formatted
    error_message := audio.metadata.error_message }

/-- Normalization used by get: identical to the generateSongs one except
that lyric is metadata.prompt piped through parseLyrics when it is truthy
(present and nonempty) and the empty string otherwise. -/
def normalizeGetClip (audio : RawClip) : AudioInfo :=
  { normalizeGenClip audio with
    lyric := some (match audio.metadata.prompt with
      | some p => if p = "" then "" else parseLyrics p
      | none => "") }

/-- Feed path built by get (query string only present when ids are given). -/
def feedPath (songIds : Option (List String)) : String :=
  "/api/feed/" ++ (match songIds with
    | some ids => "?ids=" ++ String.intercalate "," ids
    | none => "")

/-- Reading response.clips: defined only when the body has that shape. -/
def clipsOf : SunoResponse → Option (List RawClip)
  | .generateResp clips => some clips
  | _ => none

/-- Success condition of the wait_audio poll: every clip streaming or
complete (vacuously true on an empty feed, as Array.prototype.every is). -/
def allCompleted (clips : List AudioInfo) : Bool :=
  clips.all fun audio => audio.status == "streaming" || audio.status == "complete"

/-- Failure condition of the wait_audio poll: every clip in status error. -/
def allError (clips : List AudioInfo) : Bool :=
  clips.all fun audio => audio.status == "error"

/-- A raw feed read on which the wait_audio poll stops: after
normalization, all clips are streaming/complete or all are error. -/
def terminalRead (clips : List RawClip) : Bool :=
  allCompleted (clips.map normalizeGetClip) || allError (clips.map normalizeGetClip)

section Ops2

variable (script : Nat → SunoResponse) (rand : Nat → Nat)

/-- Model of the public get: unconditional renewal, then one feed request
whose clips are normalized; a non-array body makes the map call throw. -/
def get (songIds : Option (List String)) : SunoM (List AudioInfo) := do
  keepAlive script rand false
  let r ← fetchSunoApi script BASE_URL (feedPath songIds)
  match r with
  | .feed clips => pure (clips.map normalizeGetClip)
  | _ => CM.throw .typeError

/-- Model of the wait_audio polling loop inside generateSongs: while less
than 100 seconds have elapsed, read the feed; if every clip is terminal
(all streaming/complete, or all error) return that read, otherwise retain
it, sleep 3-6 seconds, renew with a 1-2 second wait, and go round again.
When the deadline is hit the last retained read is returned as a normal
value.  The fuel argument is a modelling artifact: each non-terminal
iteration advances the clock by at least 4 seconds, so fuel 30 is proved
to never run out. -/
def pollLoop (songIds : List String) (startTime : Nat) :
    Nat → List AudioInfo → SunoM (List AudioInfo)
  | 0, _ => CM.throw .fuelOut
  | fuel + 1, lastResponse => do
      let c ← CM.getCtx
      if c.now - startTime < 100000 then do
        let response ← get script rand (some songIds)
        if allCompleted response || allError response then
          pure response
        else do
          sleepM rand 3 6
          keepAlive script rand true
          pollLoop songIds startTime fuel response
      else
        pure lastResponse

/-- Model of the private generateSongs: unconditional renewal, one POST to
the generation endpoint, then either the deadline-bound poll (wait_audio
true) or an immediate renewal-plus-normalize return (wait_audio false). -/
def generateSongs (wait_audio : Bool) : SunoM (List AudioInfo) := do
  keepAlive script rand false
  let r ← fetchSunoApi script BASE_URL "/api/generate/v2/"
  match clipsOf r with
  | none => CM.throw .typeError
  | some clips => do
      let songIds := clips.map fun clip => clip.id
      if wait_audio then do
        let c ← CM.getCtx
        sleepM rand 5 5
        pollLoop script rand songIds c.now 30 []
      else do
        keepAlive script rand true
        pure (clips.map normalizeGenClip)

/-- Model of the public generate: renew, then delegate to generateSongs. -/
def generate (wait_audio : Bool) : SunoM (List AudioInfo) := do
  keepAlive script rand false
  generateSongs script rand wait_audio

/-- Model of the public customGenerate: delegates to generateSongs without
a renewal of its own. -/
def customGenerate (wait_audio : Bool) : SunoM (List AudioInfo) :=
  generateSongs script rand wait_audio

/-- Model of the public concatenate: renew, then one POST. -/
def concatenate : SunoM SunoResponse := do
  keepAlive script rand false
  fetchSunoApi script BASE_URL "/api/generate/concat/v2/"

/-- Reading generateResponse.id. -/
def idOf : SunoResponse → Option String
  | .idResp i => some i
  | _ => none

/-- Reading lyricsResponse?.status. -/
def lyricsStatusOf : SunoResponse → Option String
  | .lyricsJob status _ _ => status
  | _ => none

/-- Model of the lyrics polling loop: read, and while the status is not
complete sleep two seconds and read again (no deadline; fuel artifact). -/
def lyricsLoop (generateId : String) : Nat → SunoM SunoResponse
  | 0 => CM.throw .fuelOut
  | fuel + 1 => do
      let r ← fetchSunoApi script BASE_URL ("/api/generate/lyrics/" ++ generateId)
      if lyricsStatusOf r = some "complete" then
        pure r
      else do
        sleepM rand 2 2
        lyricsLoop generateId fuel

/-- Model of the public generateLyrics: renew, submit, poll to completion,
return the title/text fields of the final read. -/
def generateLyrics (fuel : Nat) : SunoM (Option String × Option String) := do
  keepAlive script rand false
  let g ← fetchSunoApi script BASE_URL "/api/generate/lyrics/"
  let generateId := (idOf g).getD "undefined"
  let r ← lyricsLoop script rand generateId fuel
  match r with
  | .lyricsJob _ ltitle ltext => pure (ltitle, ltext)
  | _ => pure (none, none)

/-- Model of the public extendAudio: a single POST to the generation
endpoint, with no renewal call of any kind. -/
def extendAudio : SunoM SunoResponse :=
  fetchSunoApi script BASE_URL "/api/generate/v2/"

/-- Model of the public getClip: renew, then one GET. -/
def getClip (clipId : String) : SunoM SunoResponse := do
  keepAlive script rand false
  fetchSunoApi script BASE_URL ("/api/clip/" ++ clipId)

/-- Model of the public getCredits: renew, then one GET. -/
def getCredits : SunoM SunoResponse := do
  keepAlive script rand false
  fetchSunoApi script BASE_URL "/api/billing/info/"

end Ops2

/-- Fresh context for running a method on an instance in state s. -/
def initCtx (s : SunoState) : SCtx :=
  { st := s, scriptIdx := 0, randIdx := 0, now := 0, trace := [] }

/-- A computation only ever appends to the event trace (its effects come
after whatever already happened). -/
def TraceExtends (m : SunoM α) : Prop :=
  ∀ c : SCtx, ∃ t, (RRes.ctx (m c)).trace = c.trace ++ t

end Clite.Suno

namespace Clite.Rx

/-- Whitespace as matched by the \s class and by String.prototype.trim. -/
def isWs (c : Char) : Bool := c.isWhitespace

/-- Case folding performed by the i flag (ASCII-faithful). -/
def lower (c : Char) : Char := c.toLower

/-- The characters escaped by FakeYou.escapeForRegex, i.e. the character
class [.*+?^$\x7b\x7d()|[\]\\] of the source. -/
def isMeta (c : Char) : Bool :=
  c = '.' || c = '*' || c = '+' || c = '?' || c = '^' || c = '$' ||
  c = '\x7b' || c = '\x7d' || c = '(' || c = ')' || c = '|' ||
  c = '[' || c = ']' || c = '\\'

/-- Model of escapeForRegex on character lists: a backslash is put in
front of every regex-special character (replacement \\$& of the source). -/
def escapeForRegex : List Char → List Char
  | [] => []
  | c :: rest =>
      if isMeta c then '\\' :: c :: escapeForRegex rest
      else c :: escapeForRegex rest

/-- Worker for wsReplace; the flag records whether the previous character
belonged to a whitespace run already rewritten. -/
def wsReplaceAux : Bool → List Char → List Char
  | _, [] => []
  | inRun, c :: rest =>
      if isWs c then
        if inRun then wsReplaceAux true rest
        else '\\' :: 's' :: '+' :: wsReplaceAux true rest
      else c :: wsReplaceAux false rest

/-- Model of .replace(/\s+/g, with a backslash-s-plus replacement): every
maximal run of whitespace becomes the three characters backslash, s, plus. -/
def wsReplace (l : List Char) : List Char := wsReplaceAux false l

/-- Model of String.prototype.trim on character lists: leading and
trailing whitespace removed. -/
def trimChars (l : List Char) : List Char :=
  ((l.dropWhile isWs).reverse.dropWhile isWs).reverse

/-- Pattern string handed to the RegExp constructor by searchModel. -/
def buildPattern (query : String) : List Char :=
  wsReplace (escapeForRegex (trimChars query.data))

/-- Atom of the pattern fragment these patterns live in: a literal
character (compared case-insensitively) or \s+ (one or more whitespace). -/
inductive Atom where
  | lit (c : Char)
  | wsPlus
deriving DecidableEq, Repr

/-- Parser for the pattern fragment: backslash-s-plus denotes wsPlus, a
backslash followed by a special character denotes that literal character,
a plain non-special character denotes itself; anything else (an unescaped
special character, a dangling or unknown escape) is rejected, standing for
a pattern whose meaning is not plain literal matching. -/
def parsePattern : List Char → Option (List Atom)
  | [] => some []
  | c :: rest =>
      if c = '\\' then
        match rest with
        | [] => none
        | d :: rest2 =>
            if d = 's' then
              match rest2 with
              | [] => none
              | e :: rest3 =>
                  if e = '+' then (parsePattern rest3).map fun as => .wsPlus :: as
                  else none
            else if isMeta d then (parsePattern rest2).map fun as => .lit d :: as
            else none
      else if isMeta c then none
      else (parsePattern rest).map fun as => .lit c :: as

/-- Worker for compileQuery, with the same run flag as wsReplaceAux. -/
def compileQueryAux : Bool → List Char → List Atom
  | _, [] => []
  | inRun, c :: rest =>
      if isWs c then
        if inRun then compileQueryAux true rest
        else .wsPlus :: compileQueryAux true rest
      else .lit c :: compileQueryAux false rest

/-- Intended literal reading of a query: each non-whitespace character is
itself, each maximal whitespace run is a flexible whitespace gap. -/
def compileQuery (l : List Char) : List Atom := compileQueryAux false l

/-- Matching of an atom list against a PREFIX of the character list,
following the NFA semantics of the regex fragment (wsPlus consumes one or
more whitespace characters, literals compare case-insensitively). -/
def matchesAtoms : List Atom → List Char → Bool
  | [], _ => true
  | _ :: _, [] => false
  | .lit c :: as, d :: ds => (lower c == lower d) && matchesAtoms as ds
  | .wsPlus :: as, d :: ds =>
      isWs d && (matchesAtoms as ds || matchesAtoms (.wsPlus :: as) ds)

/-- Model of RegExp.prototype.test: the atoms match starting at some
position of the string. -/
def testAtoms (atoms : List Atom) (s : List Char) : Bool :=
  s.tails.any (matchesAtoms atoms)

/-- Model of the whole new-RegExp-then-test pipeline of searchModel: the
pattern built from the query is parsed and tested; an unparsable pattern
(impossible for built patterns, as proved below) matches nothing. -/
def regexTest (pattern : List Char) (s : List Char) : Bool :=
  match parsePattern pattern with
  | some atoms => testAtoms atoms s
  | none => false

/-- Declarative matching relation between an atom list and a character
segment: the literal, case-insensitive, whitespace-flexible reading in
which each wsPlus stands for one or more whitespace characters.  This is
the specification-side meaning against which the executable matcher is
proved correct. -/
inductive AtomsMatch : List Atom → List Char → Prop where
  | nil : AtomsMatch [] []
  | lit (c d : Char) (as : List Atom) (ds : List Char) :
      lower c = lower d → AtomsMatch as ds → AtomsMatch (.lit c :: as) (d :: ds)
  | wsOne (d : Char) (as : List Atom) (ds : List Char) :
      isWs d = true → AtomsMatch as ds → AtomsMatch (.wsPlus :: as) (d :: ds)
  | wsMore (d : Char) (as : List Atom) (ds : List Char) :
      isWs d = true → AtomsMatch (.wsPlus :: as) ds → AtomsMatch (.wsPlus :: as) (d :: ds)

/-- Specification-side statement that the title contains the query as a
literal, case-insensitive, whitespace-flexible substring. -/
def LiteralFlexSubstring (query : String) (title : List Char) : Prop :=
  ∃ front seg back, title = front ++ seg ++ back ∧
    AtomsMatch (compileQuery (trimChars query.data)) seg

end Clite.Rx

namespace Clite.Sort

/-- Merge of two lists, taking from the left while the comparator reports
less-or-equal; the left-priority tie handling is what makes the sort
stable. -/
def merge (le : α → α → Bool) : List α → List α → List α
  | [], ys => ys
  | xs, [] => xs
  | x :: xs, y :: ys =>
      if le x y then x :: merge le xs (y :: ys) else y :: merge le (x :: xs) ys
termination_by l1 l2 => l1.length + l2.length

/-- Stable merge sort, the model of Array.prototype.sort with the given
comparator (ES2019 and later guarantee a stable sort; the comparator le is
the predicate comparefn of a and b is at most zero). -/
def msort (le : α → α → Bool) (xs : List α) : List α :=
  if h : xs.length ≤ 1 then xs
  else
    merge le (msort le (xs.take (xs.length / 2))) (msort le (xs.drop (xs.length / 2)))
termination_by xs.length
decreasing_by
  · simp only [List.length_take]; omega
  · simp only [List.length_drop]; omega

/-- Sortedness of a list under a boolean comparator. -/
def SortedB (le : α → α → Bool) (l : List α) : Prop :=
  List.Pairwise (fun a b => le a b = true) l

end Clite.Sort

namespace Clite.FakeYou

/-- Voice model descriptor; the fields the client code actually reads. -/
structure Model where
  model_token : String
  title : String
  ietf_language_tag : String
deriving DecidableEq, Repr

/-- Model of String.prototype.localeCompare under the lexicographic
collation the spec calls for. -/
def localeCompareInt (a b : String) : Int :=
  if a < b then -1 else if a = b then 0 else 1

/-- The sort comparator of searchModel: with a truthy language hint, a
model whose tag starts with the hint is reported smaller; otherwise
comparison falls through to title order. -/
def modelCompare (language : Option String) (a b : Model) : Int :=
  match language with
  | some l =>
      if l ≠ "" then
        if a.ietf_language_tag.take 2 = l then -1
        else if b.ietf_language_tag.take 2 = l then 1
        else localeCompareInt a.title b.title
      else localeCompareInt a.title b.title
  | none => localeCompareInt a.title b.title

/-- Boolean less-or-equal induced by the comparator, fed to the sort. -/
def modelLe (language : Option String) (a b : Model) : Bool :=
  modelCompare language a b ≤ 0

/-- Tie-break order of the comparator: title order. -/
def titleLe (a b : Model) : Bool :=
  localeCompareInt a.title b.title ≤ 0

/-- A model matching the language hint by tag two-letter portion. -/
def langMatches (lang : String) (m : Model) : Bool :=
  m.ietf_language_tag.take 2 = lang

/-- TTS job record; the fields the client code actually reads. -/
structure FYJob where
  job_token : String
  status : String
  maybe_public_bucket_wav_audio_path : Option String
deriving DecidableEq, Repr

/-- JSON value sitting in a payload field of a FakeYou envelope. -/
inductive FYValue where
  | str (s : String)
  | job (j : FYJob)
  | models (ms : List Model)
  | other
deriving DecidableEq, Repr

/-- Scripted response of the FakeYou service: a non-2xx status, or a 2xx
JSON body with its success flag and named payload fields. -/
inductive FYResponse where
  | httpError
  | env (success : Bool) (fields : List (String × FYValue))
deriving DecidableEq, Repr

/-- Trace event of the FakeYou client. -/
inductive FEv where
  | req (path : String)
  | sleepEv (ms : Nat)
deriving DecidableEq, Repr

/-- Errors a FakeYou method can throw.  transportFailed and apiFailed both
render as the message Failed-to-fetch-path in the source; they are told
apart here by throw site, matching the TransportError/ApiError kinds of
the specification. -/
inductive FErr where
  | transportFailed (path : String)
  | apiFailed (path : String)
  | loginFailed
  | logoutFailed
  | jobFailed (status : Option String)
  | missingResult
  | typeError
  | fuelOut
deriving DecidableEq, Repr

/-- Credential state of a FakeYou instance: the private sessionCookie. -/
structure FYState where
  sessionCookie : Option String
deriving DecidableEq, Repr

/-- Execution context of the FakeYou client. -/
structure FYCtx where
  st : FYState
  scriptIdx : Nat
  trace : List FEv
deriving DecidableEq, Repr

abbrev FYM (α : Type) := CM FErr FYCtx α

section FYOps

variable (script : Nat → FYResponse)

/-- Model of fetchFakeYouApi: records the request, consumes one scripted
response, throws on a non-2xx status, and otherwise hands back the parsed
body (success flag and payload fields). -/
def fetchFakeYouApi (path : String) : FYM (Bool × List (String × FYValue)) := fun c =>
  let r := script c.scriptIdx
  let c' := { c with scriptIdx := c.scriptIdx + 1, trace := c.trace ++ [.req path] }
  match r with
  | .httpError => .err (.transportFailed path) c'
  | .env success fields => .ok (success, fields) c'

/-- Model of the private request helper: fetch, reject the envelope when
its success flag is false (even though the HTTP status was 2xx), and
otherwise return the named payload field (undefined when absent, hence
the Option). -/
def request (path resultField : String) : FYM (Option FYValue) := do
  let res ← fetchFakeYouApi script path
  if !res.fst then CM.throw (.apiFailed path)
  else pure (List.lookup resultField res.snd)

/-- Model of deinit: one logout POST, throw if the service reports
failure, then clear the session cookie. -/
def deinit : FYM PUnit := do
  let res ← fetchFakeYouApi script "v1/logout"
  if !res.fst then CM.throw .logoutFailed
  else CM.modifyCtx fun c => { c with st := { sessionCookie := none } }

/-- Model of listModels. -/
def listModels : FYM (Option FYValue) :=
  request script "tts/list" "models"

/-- Model of searchModel: build the escaped filter regex, fetch the model
list, filter by title match, and sort with the language-priority
comparator. -/
def searchModel (query : String) (language : Option String) : FYM (List Model) := do
  let v ← listModels script
  match v with
  | some (.models ms) =>
      pure (Sort.msort (modelLe language)
        (ms.filter fun m => Rx.regexTest (Rx.buildPattern query) m.title.data))
  | _ => CM.throw .typeError

/-- Reading job.status off the raw payload value. -/
def jobStatusOf : Option FYValue → Option String
  | some (.job j) => some j.status
  | _ => none

/-- Model of the do-while poll of waitForJobCompletion: read the job;
while the status is pending or started, sleep pollInterval and read
again; the first read with any other status leaves the loop. -/
def wfjLoop (jobToken : String) (pollInterval : Nat) : Nat → FYM (Option FYValue)
  | 0 => CM.throw .fuelOut
  | fuel + 1 => do
      let v ← request script ("tts/job/" ++ jobToken) "state"
      let st := jobStatusOf v
      if st = some "pending" || st = some "started" then do
        CM.modifyCtx fun c => { c with trace := c.trace ++ [.sleepEv pollInterval] }
        wfjLoop jobToken pollInterval fuel
      else pure v

/-- Model of waitForJobCompletion: poll to the first terminal read, then
throw a job-failed error carrying the status unless it is
complete_success, in which case the job record is returned. -/
def waitForJobCompletion (jobToken : String) (pollInterval fuel : Nat) :
    FYM (Option FYValue) := do
  let v ← wfjLoop script jobToken pollInterval fuel
  if jobStatusOf v ≠ some "complete_success" then CM.throw (.jobFailed (jobStatusOf v))
  else pure v

end FYOps

/-- Fresh context for running a method on an instance in state s. -/
def initCtx (s : FYState) : FYCtx :=
  { st := s, scriptIdx := 0, trace := [] }

end Clite.FakeYou

namespace Clite

@[simp] theorem CM.bind_apply (x : CM ε σ α) (f : α → CM ε σ β) (c : σ) :
    (x >>= f) c = match x c with
      | .ok a c' => f a c'
      | .err e c' => .err e c' := rfl

@[simp] theorem CM.pure_apply (a : α) (c : σ) :
    (Pure.pure (f := CM ε σ) a) c = .ok a c := rfl

@[simp] theorem CM.throw_apply (e : ε) (c : σ) :
    (CM.throw (α := α) e) c = .err e c := rfl

@[simp] theorem CM.getCtx_apply (c : σ) :
    (CM.getCtx (ε := ε)) c = .ok c c := rfl

@[simp] theorem CM.modifyCtx_apply (f : σ → σ) (c : σ) :
    (CM.modifyCtx (ε := ε) f) c = .ok ⟨⟩ (f c) := rfl

@[simp] theorem RRes.ctx_ok (a : α) (c : σ) : (RRes.ctx (ε := ε) (.ok a c)) = c := rfl

@[simp] theorem RRes.ctx_err (e : ε) (c : σ) : (RRes.ctx (α := α) (.err e c)) = c := rfl

end Clite

namespace Clite.Rx

theorem isMeta_isWs_false (c : Char) (h : isMeta c = true) : isWs c = false := by
  revert h
  simp only [isMeta, Bool.or_eq_true, decide_eq_true_eq]
  rintro (((((((((((((h | h) | h) | h) | h) | h) | h) | h) | h) | h) | h) | h) | h) | h) <;>
    subst h <;> decide

theorem isMeta_ne_s (c : Char) (h : isMeta c = true) : c ≠ 's' := by
  revert h
  simp only [isMeta, Bool.or_eq_true, decide_eq_true_eq]
  rintro (((((((((((((h | h) | h) | h) | h) | h) | h) | h) | h) | h) | h) | h) | h) | h) <;>
    subst h <;> decide

theorem not_isMeta_ne_backslash (c : Char) (h : isMeta c = false) : c ≠ '\\' := by
  intro hc
  subst hc
  simp [isMeta] at h

theorem isWs_not_isMeta (c : Char) (h : isWs c = true) : isMeta c = false := by
  cases hm : isMeta c with
  | false => rfl
  | true => rw [isMeta_isWs_false c hm] at h; cases h

/-- Parsing the pattern searchModel builds always succeeds and yields
exactly the literal reading of the query: escaped specials become
themselves and rewritten whitespace runs become flexible gaps. -/
theorem parsePattern_wsReplaceAux_escape (l : List Char) :
    ∀ b, parsePattern (wsReplaceAux b (escapeForRegex l)) = some (compileQueryAux b l) := by
  induction l with
  | nil => intro b; simp [escapeForRegex, wsReplaceAux, parsePattern, compileQueryAux]
  | cons c rest ih =>
      intro b
      by_cases hm : isMeta c = true
      · have hw : isWs c = false := isMeta_isWs_false c hm
        have hs : c ≠ 's' := isMeta_ne_s c hm
        have hbs : isWs '\\' = false := by decide
        have h1 : wsReplaceAux b (escapeForRegex (c :: rest)) =
            '\\' :: c :: wsReplaceAux false (escapeForRegex rest) := by
          simp [escapeForRegex, wsReplaceAux, hm, hw, hbs]
        rw [h1, parsePattern.eq_def]
        simp [hs, hm, ih false, compileQueryAux, hw]
      · have hm' : isMeta c = false := by simpa using hm
        by_cases hw : isWs c = true
        · cases b with
          | true =>
              have h1 : wsReplaceAux true (escapeForRegex (c :: rest)) =
                  wsReplaceAux true (escapeForRegex rest) := by
                simp [escapeForRegex, wsReplaceAux, hm', hw]
              have h2 : compileQueryAux true (c :: rest) = compileQueryAux true rest := by
                simp [compileQueryAux, hw]
              rw [h1, h2]
              exact ih true
          | false =>
              have h1 : wsReplaceAux false (escapeForRegex (c :: rest)) =
                  '\\' :: 's' :: '+' :: wsReplaceAux true (escapeForRegex rest) := by
                simp [escapeForRegex, wsReplaceAux, hm', hw]
              rw [h1, parsePattern.eq_def]
              simp [ih true, compileQueryAux, hw]
        · have hw' : isWs c = false := by simpa using hw
          have hbs : c ≠ '\\' := not_isMeta_ne_backslash c hm'
          have h1 : wsReplaceAux b (escapeForRegex (c :: rest)) =
              c :: wsReplaceAux false (escapeForRegex rest) := by
            simp [escapeForRegex, wsReplaceAux, hm', hw']
          rw [h1, parsePattern.eq_def]
          simp [hbs, hm', ih false, compileQueryAux, hw']

/-- Same statement at the entry points. -/
theorem parsePattern_buildPattern (query : String) :
    parsePattern (buildPattern query) = some (compileQuery (trimChars query.data)) :=
  parsePattern_wsReplaceAux_escape (trimChars query.data) false

theorem atomsMatch_nil_right {as : List Atom} (h : AtomsMatch as []) : as = [] := by
  cases h; rfl

/-- The executable matcher agrees with the declarative matching relation:
it accepts exactly the lists some leading segment of which the atoms
match. -/
theorem matchesAtoms_iff (l : List Char) :
    ∀ as, matchesAtoms as l = true ↔ ∃ seg post, l = seg ++ post ∧ AtomsMatch as seg := by
  induction l with
  | nil =>
      intro as
      cases as with
      | nil =>
          simp only [matchesAtoms, true_iff]
          exact ⟨[], [], rfl, .nil⟩
      | cons a as' =>
          simp only [matchesAtoms]
          constructor
          · intro h
            exact absurd h (by decide)
          · rintro ⟨seg, post, hl, hm⟩
            have hseg : seg = [] := by
              cases seg with
              | nil => rfl
              | cons s ss => simp at hl
            subst hseg
            cases hm
  | cons d ds ih =>
      intro as
      cases as with
      | nil =>
          simp only [matchesAtoms, true_iff]
          exact ⟨[], d :: ds, rfl, .nil⟩
      | cons a as' =>
          cases a with
          | lit c =>
              simp only [matchesAtoms, Bool.and_eq_true, beq_iff_eq]
              constructor
              · rintro ⟨hc, hm⟩
                obtain ⟨seg', post', hds, hm'⟩ := (ih as').mp hm
                exact ⟨d :: seg', post', by simp [hds], .lit c d as' seg' hc hm'⟩
              · rintro ⟨seg, post, hl, hm⟩
                cases seg with
                | nil => exact absurd (atomsMatch_nil_right hm) (by simp)
                | cons s seg' =>
                    simp only [List.cons_append, List.cons.injEq] at hl
                    obtain ⟨hsd, hds⟩ := hl
                    subst hsd
                    cases hm with
                    | lit _ _ _ _ hc hm' =>
                        exact ⟨hc, (ih as').mpr ⟨seg', post, hds, hm'⟩⟩
          | wsPlus =>
              simp only [matchesAtoms, Bool.and_eq_true, Bool.or_eq_true]
              constructor
              · rintro ⟨hd, hA | hB⟩
                · obtain ⟨seg', post', hds, hm'⟩ := (ih as').mp hA
                  exact ⟨d :: seg', post', by simp [hds], .wsOne d as' seg' hd hm'⟩
                · obtain ⟨seg', post', hds, hm'⟩ := (ih (.wsPlus :: as')).mp hB
                  exact ⟨d :: seg', post', by simp [hds], .wsMore d as' seg' hd hm'⟩
              · rintro ⟨seg, post, hl, hm⟩
                cases seg with
                | nil => exact absurd (atomsMatch_nil_right hm) (by simp)
                | cons s seg' =>
                    simp only [List.cons_append, List.cons.injEq] at hl
                    obtain ⟨hsd, hds⟩ := hl
                    subst hsd
                    cases hm with
                    | wsOne _ _ _ hd hm' =>
                        exact ⟨hd, Or.inl ((ih as').mpr ⟨seg', post, hds, hm'⟩)⟩
                    | wsMore _ _ _ hd hm' =>
                        exact ⟨hd, Or.inr ((ih (.wsPlus :: as')).mpr ⟨seg', post, hds, hm'⟩)⟩

/-- Test accepts exactly the strings containing a matching segment. -/
theorem testAtoms_iff (atoms : List Atom) (t : List Char) :
    testAtoms atoms t = true ↔
      ∃ front seg back, t = front ++ seg ++ back ∧ AtomsMatch atoms seg := by
  simp only [testAtoms, List.any_eq_true]
  constructor
  · rintro ⟨suf, hsuf, hm⟩
    obtain ⟨front, hfront⟩ := (List.mem_tails suf t).mp hsuf
    obtain ⟨seg, post, hsp, hm'⟩ := (matchesAtoms_iff suf atoms).mp hm
    exact ⟨front, seg, post, by rw [List.append_assoc, ← hsp, hfront], hm'⟩
  · rintro ⟨front, seg, back, ht, hm⟩
    refine ⟨seg ++ back, ?_, ?_⟩
    · exact (List.mem_tails _ _).mpr ⟨front, by rw [ht, List.append_assoc]⟩
    · exact (matchesAtoms_iff _ atoms).mpr ⟨seg, back, rfl, hm⟩

/-- The full pipeline of searchModel (escape, whitespace rewrite, RegExp,
test) accepts a title exactly when it contains the query as a literal,
case-insensitive, whitespace-flexible substring. -/
theorem regexTest_buildPattern_iff (query : String) (t : List Char) :
    regexTest (buildPattern query) t = true ↔ LiteralFlexSubstring query t := by
  unfold regexTest LiteralFlexSubstring
  rw [parsePattern_buildPattern]
  exact testAtoms_iff _ t

end Clite.Rx

namespace Clite.Sort

theorem merge_nil_left (le : α → α → Bool) (l : List α) : merge le [] l = l := by
  rw [merge.eq_def]; cases l <;> simp

theorem merge_nil_right (le : α → α → Bool) (l : List α) : merge le l [] = l := by
  rw [merge.eq_def]; cases l <;> simp

theorem merge_cons_cons (le : α → α → Bool) (x y : α) (xs ys : List α) :
    merge le (x :: xs) (y :: ys) =
      if le x y then x :: merge le xs (y :: ys) else y :: merge le (x :: xs) ys := by
  rw [merge.eq_def]

/-- Merging is a permutation of the concatenation. -/
theorem merge_perm (le : α → α → Bool) :
    ∀ l1 l2 : List α, List.Perm (merge le l1 l2) (l1 ++ l2) := by
  intro l1
  induction l1 with
  | nil => intro l2; rw [merge_nil_left]; simp
  | cons x l1' ih1 =>
      intro l2
      induction l2 with
      | nil => rw [merge_nil_right]; simp
      | cons y l2' ih2 =>
          rw [merge_cons_cons]
          by_cases h : le x y = true
          · rw [if_pos h]
            exact (ih1 (y :: l2')).cons x
          · rw [if_neg h]
            refine (ih2.cons y).trans ?_
            exact List.perm_middle.symm

/-- While every head of the left block is below everything, merging emits
the whole left block first. -/
theorem merge_takeLeft (le : α → α → Bool) :
    ∀ (A S R : List α), (∀ x ∈ A, ∀ y, le x y = true) →
      merge le (A ++ S) R = A ++ merge le S R := by
  intro A
  induction A with
  | nil => intro S R _; rfl
  | cons x A' ih =>
      intro S R hA
      cases R with
      | nil => rw [merge_nil_right, merge_nil_right]
      | cons y R' =>
          have hxy : le x y = true := hA x (by simp) y
          simp only [List.cons_append, merge_cons_cons, hxy, if_true]
          rw [ih S (y :: R') fun z hz w => hA z (by simp [hz]) w]

/-- While every head of the right block beats everything remaining on the
left, merging emits the whole right block. -/
theorem merge_takeRight (le : α → α → Bool) :
    ∀ (B S T : List α), (∀ y ∈ B, ∀ x ∈ S, le x y = false) →
      merge le S (B ++ T) = B ++ merge le S T := by
  intro B
  induction B with
  | nil => intro S T _; rfl
  | cons y B' ih =>
      intro S T hB
      cases S with
      | nil => rw [merge_nil_left, merge_nil_left]
      | cons x S' =>
          have hxy : le x y = false := hB y (by simp) x (by simp)
          simp only [List.cons_append, merge_cons_cons, hxy]
          simp only [Bool.false_eq_true, if_false]
          rw [ih (x :: S') T fun z hz w hw => hB z (by simp [hz]) w hw]

/-- Merging only looks at comparator values across the two inputs. -/
theorem merge_congr (le1 le2 : α → α → Bool) :
    ∀ l1 l2 : List α, (∀ x ∈ l1, ∀ y ∈ l2, le1 x y = le2 x y) →
      merge le1 l1 l2 = merge le2 l1 l2 := by
  intro l1
  induction l1 with
  | nil => intro l2 _; rw [merge_nil_left, merge_nil_left]
  | cons x l1' ih1 =>
      intro l2
      induction l2 with
      | nil => intro _; rw [merge_nil_right, merge_nil_right]
      | cons y l2' ih2 =>
          intro h
          have hxy : le1 x y = le2 x y := h x (by simp) y (by simp)
          rw [merge_cons_cons, merge_cons_cons, hxy]
          by_cases hc : le2 x y = true
          · rw [if_pos hc, if_pos hc,
              ih1 (y :: l2') fun z hz w hw => h z (by simp [hz]) w hw]
          · rw [if_neg hc, if_neg hc,
              ih2 fun z hz w hw => h z hz w (by simp [hw])]

/-- Merging two sorted lists under a total, transitive comparator is
sorted. -/
theorem merge_sortedB (le : α → α → Bool)
    (htot : ∀ x y, le x y = true ∨ le y x = true)
    (htrans : ∀ x y z, le x y = true → le y z = true → le x z = true) :
    ∀ l1 l2 : List α, SortedB le l1 → SortedB le l2 → SortedB le (merge le l1 l2) := by
  intro l1
  induction l1 with
  | nil => intro l2 _ h2; rw [merge_nil_left]; exact h2
  | cons x l1' ih1 =>
      intro l2
      induction l2 with
      | nil => intro h1 _; rw [merge_nil_right]; exact h1
      | cons y l2' ih2 =>
          intro h1 h2
          obtain ⟨hx, h1'⟩ := List.pairwise_cons.mp h1
          obtain ⟨hy, h2'⟩ := List.pairwise_cons.mp h2
          rw [merge_cons_cons]
          by_cases hc : le x y = true
          · rw [if_pos hc]
            refine List.pairwise_cons.mpr ⟨?_, ih1 (y :: l2') h1' h2⟩
            intro z hz
            have hz' : z ∈ l1' ++ y :: l2' :=
              (merge_perm le l1' (y :: l2')).mem_iff.mp hz
            rcases List.mem_append.mp hz' with hzl | hzr
            · exact hx z hzl
            · rcases List.mem_cons.mp hzr with hzy | hzr'
              · rw [hzy]; exact hc
              · exact htrans x y z hc (hy z hzr')
          · rw [if_neg hc]
            have hyx : le y x = true := by
              rcases htot x y with h | h
              · exact absurd h hc
              · exact h
            refine List.pairwise_cons.mpr ⟨?_, ih2 h1 h2'⟩
            intro z hz
            have hz' : z ∈ (x :: l1') ++ l2' :=
              (merge_perm le (x :: l1') l2').mem_iff.mp hz
            rcases List.mem_append.mp hz' with hzl | hzr
            · rcases List.mem_cons.mp hzl with hzx | hzl'
              · rw [hzx]; exact hyx
              · exact htrans y x z hyx (hx z hzl')
            · exact hy z hzr

/-- The sort is a permutation of its input. -/
theorem msort_perm_le (le : α → α → Bool) :
    ∀ (n : Nat) (xs : List α), xs.length ≤ n → List.Perm (msort le xs) xs := by
  intro n
  induction n with
  | zero =>
      intro xs hlen
      have hx : xs = [] := List.eq_nil_of_length_eq_zero (Nat.le_zero.mp hlen)
      subst hx
      rw [msort.eq_def, dif_pos (by simp)]
  | succ n ih =>
      intro xs hlen
      rw [msort.eq_def]
      by_cases h : xs.length ≤ 1
      · rw [dif_pos h]
      · rw [dif_neg h]
        have htake : (xs.take (xs.length / 2)).length ≤ n := by
          simp only [List.length_take]; omega
        have hdrop : (xs.drop (xs.length / 2)).length ≤ n := by
          simp only [List.length_drop]; omega
        refine (merge_perm le _ _).trans ?_
        refine ((ih _ htake).append (ih _ hdrop)).trans ?_
        rw [List.take_append_drop]

/-- Same statement without the length bookkeeping. -/
theorem msort_perm (le : α → α → Bool) (xs : List α) :
    List.Perm (msort le xs) xs :=
  msort_perm_le le xs.length xs (Nat.le_refl _)

/-- Structure of the sort under a two-class comparator: when the
comparator reports every p-element below everything, every non-p element
above every p-element, and compares two non-p elements by a total
transitive tie-break, the sorted output is the p-elements in input order
followed by the non-p elements sorted by the tie-break. -/
theorem msort_sep (p : α → Bool) (le tle : α → α → Bool)
    (h1 : ∀ x y, p x = true → le x y = true)
    (h2 : ∀ x y, p x = false → p y = true → le x y = false)
    (h3 : ∀ x y, p x = false → p y = false → le x y = tle x y)
    (htot : ∀ x y, tle x y = true ∨ tle y x = true)
    (htrans : ∀ x y z, tle x y = true → tle y z = true → tle x z = true) :
    ∀ (n : Nat) (xs : List α), xs.length ≤ n →
      ∃ S, msort le xs = xs.filter p ++ S ∧
        List.Perm S (xs.filter fun x => !p x) ∧ SortedB tle S ∧
        ∀ x ∈ S, p x = false := by
  intro n
  induction n with
  | zero =>
      intro xs hlen
      have hx : xs = [] := List.eq_nil_of_length_eq_zero (Nat.le_zero.mp hlen)
      subst hx
      exact ⟨[], by rw [msort.eq_def, dif_pos (by simp)]; rfl, by simp, by simp [SortedB], by simp⟩
  | succ n ih =>
      intro xs hlen
      by_cases h : xs.length ≤ 1
      · cases xs with
        | nil =>
            exact ⟨[], by rw [msort.eq_def, dif_pos (by simp)]; rfl, by simp,
              by simp [SortedB], by simp⟩
        | cons x xs' =>
            have hxs' : xs' = [] := by
              have := List.length_cons x xs' ▸ h
              exact List.eq_nil_of_length_eq_zero (by omega)
            subst hxs'
            cases hp : p x with
            | true =>
                refine ⟨[], ?_, by simp [hp], by simp [SortedB], by simp⟩
                have hf : List.filter p [x] = [x] := by simp [hp]
                rw [msort.eq_def, dif_pos (by simp), hf]
                simp
            | false =>
                refine ⟨[x], ?_, by simp [List.filter, hp], by simp [SortedB], ?_⟩
                · rw [msort.eq_def, dif_pos (by simp)]
                  simp [List.filter, hp]
                · intro z hz
                  rw [List.mem_singleton.mp hz]
                  exact hp
      · have htake : (xs.take (xs.length / 2)).length ≤ n := by
          simp only [List.length_take]; omega
        have hdrop : (xs.drop (xs.length / 2)).length ≤ n := by
          simp only [List.length_drop]; omega
        obtain ⟨S1, hS1eq, hS1perm, hS1sorted, hS1p⟩ := ih _ htake
        obtain ⟨S2, hS2eq, hS2perm, hS2sorted, hS2p⟩ := ih _ hdrop
        set A1 := (xs.take (xs.length / 2)).filter p with hA1
        set A2 := (xs.drop (xs.length / 2)).filter p with hA2
        have hA1p : ∀ x ∈ A1, p x = true := fun x hx => (List.mem_filter.mp hx).2
        have hA2p : ∀ x ∈ A2, p x = true := fun x hx => (List.mem_filter.mp hx).2
        have hmain : msort le xs = A1 ++ (A2 ++ merge tle S1 S2) := by
          rw [msort.eq_def, dif_neg h, hS1eq, hS2eq]
          rw [merge_takeLeft le A1 S1 (A2 ++ S2)
            (fun x hx y => h1 x y (hA1p x hx))]
          rw [merge_takeRight le A2 S1 S2
            (fun y hy x hx => h2 x y (hS1p x hx) (hA2p y hy))]
          rw [merge_congr le tle S1 S2
            (fun x hx y hy => h3 x y (hS1p x hx) (hS2p y hy))]
        refine ⟨merge tle S1 S2, ?_, ?_, ?_, ?_⟩
        · rw [hmain, ← List.append_assoc, hA1, hA2, ← List.filter_append,
            List.take_append_drop]
        · refine (merge_perm tle S1 S2).trans ?_
          refine (hS1perm.append hS2perm).trans ?_
          rw [← List.filter_append, List.take_append_drop]
        · exact merge_sortedB tle htot htrans S1 S2 hS1sorted hS2sorted
        · intro x hx
          have hx' : x ∈ S1 ++ S2 := (merge_perm tle S1 S2).mem_iff.mp hx
          rcases List.mem_append.mp hx' with hx1 | hx2
          · exact hS1p x hx1
          · exact hS2p x hx2

end Clite.Sort

namespace Clite.FakeYou

theorem titleLe_true_iff (a b : Model) : titleLe a b = true ↔ a.title ≤ b.title := by
  unfold titleLe localeCompareInt
  by_cases hlt : a.title < b.title
  · simp [hlt, le_of_lt hlt]
  · by_cases heq : a.title = b.title
    · simp [hlt, heq]
    · have hgt : b.title < a.title := by
        rcases lt_trichotomy a.title b.title with h | h | h
        · exact absurd h hlt
        · exact absurd h heq
        · exact h
      simp [hlt, heq]
      exact String.lt_iff_toList_lt.mp hgt

theorem titleLe_total (a b : Model) : titleLe a b = true ∨ titleLe b a = true := by
  rw [titleLe_true_iff, titleLe_true_iff]
  exact le_total a.title b.title

theorem titleLe_trans (a b c : Model)
    (hab : titleLe a b = true) (hbc : titleLe b c = true) : titleLe a c = true := by
  rw [titleLe_true_iff] at hab hbc ⊢
  exact le_trans hab hbc

theorem modelLe_match_left (lang : String) (hlang : lang ≠ "") (a b : Model)
    (h : langMatches lang a = true) : modelLe (some lang) a b = true := by
  unfold modelLe modelCompare
  unfold langMatches at h
  simp only [decide_eq_true_eq] at h
  simp [hlang, h]

theorem modelLe_mismatch (lang : String) (hlang : lang ≠ "") (a b : Model)
    (ha : langMatches lang a = false) (hb : langMatches lang b = true) :
    modelLe (some lang) a b = false := by
  unfold modelLe modelCompare
  unfold langMatches at ha hb
  simp only [decide_eq_true_eq] at hb
  simp only [decide_eq_false_iff_not] at ha
  simp [hlang, ha, hb]

theorem modelLe_nomatch (lang : String) (hlang : lang ≠ "") (a b : Model)
    (ha : langMatches lang a = false) (hb : langMatches lang b = false) :
    modelLe (some lang) a b = titleLe a b := by
  unfold modelLe modelCompare titleLe
  unfold langMatches at ha hb
  simp only [decide_eq_false_iff_not] at ha hb
  simp [hlang, ha, hb]

end Clite.FakeYou

namespace Clite.Suno

theorem fetchSunoApi_run_ok (script : Nat → SunoResponse) (base path : String)
    (c : SCtx) (h : script c.scriptIdx ≠ .httpError) :
    fetchSunoApi script base path c = .ok (script c.scriptIdx)
      { c with scriptIdx := c.scriptIdx + 1, trace := c.trace ++ [.req base path] } := by
  unfold fetchSunoApi
  cases hscr : script c.scriptIdx <;> simp_all

theorem fetchSunoApi_run_err (script : Nat → SunoResponse) (base path : String)
    (c : SCtx) (h : script c.scriptIdx = .httpError) :
    fetchSunoApi script base path c = .err (.fetchFailed path)
      { c with scriptIdx := c.scriptIdx + 1, trace := c.trace ++ [.req base path] } := by
  unfold fetchSunoApi
  rw [h]

theorem sleepM_run_fixed (rand : Nat → Nat) (x : Nat) (c : SCtx) :
    sleepM rand x x c = .ok ⟨⟩
      { c with now := c.now + x * 1000, trace := c.trace ++ [.sleepEv (x * 1000)] } := by
  unfold sleepM
  rw [if_pos rfl]

theorem sleepM_run_rand (rand : Nat → Nat) (x y : Nat) (c : SCtx) (h : x ≠ y) :
    sleepM rand x y c = .ok ⟨⟩
      { c with randIdx := c.randIdx + 1,
               now := c.now + (min x y + rand c.randIdx % (max x y - min x y + 1)) * 1000,
               trace := c.trace ++
                 [.sleepEv ((min x y + rand c.randIdx % (max x y - min x y + 1)) * 1000)] } := by
  unfold sleepM
  rw [if_neg h]

theorem keepAlive_noSid_run (script : Nat → SunoResponse) (rand : Nat → Nat)
    (isWait : Bool) (c : SCtx) (hsid : c.st.sid = none) :
    keepAlive script rand isWait c = .err .sessionNotSet c := by
  unfold keepAlive
  simp [hsid]

theorem keepAlive_httpError_run (script : Nat → SunoResponse) (rand : Nat → Nat)
    (isWait : Bool) (c : SCtx) (sid : String) (hsid : c.st.sid = some sid)
    (h : script c.scriptIdx = .httpError) :
    keepAlive script rand isWait c = .err (.fetchFailed (tokensPath sid))
      { c with scriptIdx := c.scriptIdx + 1,
               trace := c.trace ++ [.req CLERK_BASE_URL (tokensPath sid)] } := by
  unfold keepAlive
  simp only [CM.bind_apply, CM.getCtx_apply, hsid]
  rw [fetchSunoApi_run_err script _ _ c h]

theorem keepAlive_false_run (script : Nat → SunoResponse) (rand : Nat → Nat)
    (c : SCtx) (sid : String) (hsid : c.st.sid = some sid)
    (h : script c.scriptIdx ≠ .httpError) :
    keepAlive script rand false c = .ok ⟨⟩
      { c with st := { c.st with currentToken := jwtOf (script c.scriptIdx) },
               scriptIdx := c.scriptIdx + 1,
               trace := c.trace ++ [.req CLERK_BASE_URL (tokensPath sid)] } := by
  unfold keepAlive
  simp only [CM.bind_apply, CM.getCtx_apply, hsid]
  rw [fetchSunoApi_run_ok script _ _ c h]
  simp [hsid]

theorem keepAlive_true_run (script : Nat → SunoResponse) (rand : Nat → Nat)
    (c : SCtx) (sid : String) (hsid : c.st.sid = some sid)
    (h : script c.scriptIdx ≠ .httpError) :
    keepAlive script rand true c = .ok ⟨⟩
      { c with st := { c.st with currentToken := jwtOf (script c.scriptIdx) },
               scriptIdx := c.scriptIdx + 1,
               randIdx := c.randIdx + 1,
               now := c.now + (1 + rand c.randIdx % 2) * 1000,
               trace := c.trace ++ [.req CLERK_BASE_URL (tokensPath sid),
                 .sleepEv ((1 + rand c.randIdx % 2) * 1000)] } := by
  unfold keepAlive
  simp only [CM.bind_apply, CM.getCtx_apply, hsid]
  rw [fetchSunoApi_run_ok script _ _ c h]
  dsimp only
  rw [if_pos trivial]
  simp only [CM.bind_apply]
  rw [sleepM_run_rand rand 1 2 _ (by omega)]
  simp [hsid]

theorem deinit_run (c : SCtx) :
    deinit c = .ok ⟨⟩
      { c with st := { sid := none, currentToken := none, cookie := none } } := rfl

theorem get_run (script : Nat → SunoResponse) (rand : Nat → Nat)
    (songIds : Option (List String)) (c : SCtx) (sid : String) (clips : List RawClip)
    (hsid : c.st.sid = some sid)
    (h0 : script c.scriptIdx ≠ .httpError)
    (h1 : script (c.scriptIdx + 1) = .feed clips) :
    get script rand songIds c = .ok (clips.map normalizeGetClip)
      { c with st := { c.st with currentToken := jwtOf (script c.scriptIdx) },
               scriptIdx := c.scriptIdx + 2,
               trace := c.trace ++ [.req CLERK_BASE_URL (tokensPath sid),
                 .req BASE_URL (feedPath songIds)] } := by
  unfold get
  simp only [CM.bind_apply]
  rw [keepAlive_false_run script rand c sid hsid h0]
  dsimp only
  rw [fetchSunoApi_run_ok script _ _ _ (by simp [h1])]
  simp [h1]

theorem generateSongs_run_immediate (script : Nat → SunoResponse) (rand : Nat → Nat)
    (c : SCtx) (sid : String) (clips : List RawClip)
    (hsid : c.st.sid = some sid)
    (h0 : script c.scriptIdx ≠ .httpError)
    (h1 : script (c.scriptIdx + 1) = .generateResp clips)
    (h2 : script (c.scriptIdx + 2) ≠ .httpError) :
    ∃ c', generateSongs script rand false c =
      RRes.ok (clips.map normalizeGenClip) c' := by
  unfold generateSongs
  simp only [CM.bind_apply]
  rw [keepAlive_false_run script rand c sid hsid h0]
  dsimp only
  rw [fetchSunoApi_run_ok script _ _ _ (by simp [h1])]
  dsimp only
  rw [h1]
  simp only [clipsOf]
  rw [if_neg (by simp)]
  simp only [CM.bind_apply]
  rw [keepAlive_true_run script rand _ sid (by simp [hsid]) (by simpa using h2)]
  exact ⟨_, rfl⟩

end Clite.Suno

namespace Clite.Suno

theorem te_pure (a : α) : TraceExtends (pure a : SunoM α) :=
  fun c => ⟨[], by simp⟩

theorem te_throw (e : SErr) : TraceExtends (CM.throw e : SunoM α) :=
  fun c => ⟨[], by simp⟩

theorem te_getCtx : TraceExtends (CM.getCtx : SunoM SCtx) :=
  fun c => ⟨[], by simp⟩

theorem te_bind {x : SunoM α} {f : α → SunoM β}
    (hx : TraceExtends x) (hf : ∀ a, TraceExtends (f a)) : TraceExtends (x >>= f) := by
  intro c
  have hxc := hx c
  cases h : x c with
  | ok a c' =>
      rw [h] at hxc
      obtain ⟨t, ht⟩ := hxc
      obtain ⟨t', ht'⟩ := hf a c'
      refine ⟨t ++ t', ?_⟩
      simp only [CM.bind_apply, h]
      simp only [RRes.ctx_ok] at ht
      rw [ht', ht, List.append_assoc]
  | err e c' =>
      rw [h] at hxc
      obtain ⟨t, ht⟩ := hxc
      refine ⟨t, ?_⟩
      simp only [CM.bind_apply, h]
      simpa using ht

theorem te_fetch (script : Nat → SunoResponse) (base path : String) :
    TraceExtends (fetchSunoApi script base path) := by
  intro c
  unfold fetchSunoApi
  cases script c.scriptIdx <;> exact ⟨[.req base path], by simp⟩

theorem te_sleep (rand : Nat → Nat) (x y : Nat) :
    TraceExtends (sleepM rand x y) := by
  intro c
  unfold sleepM
  by_cases h : x = y
  · rw [if_pos h]
    exact ⟨[.sleepEv (x * 1000)], by simp⟩
  · rw [if_neg h]
    exact ⟨[.sleepEv ((min x y + rand c.randIdx % (max x y - min x y + 1)) * 1000)], by simp⟩

theorem te_keepAlive (script : Nat → SunoResponse) (rand : Nat → Nat) (isWait : Bool) :
    TraceExtends (keepAlive script rand isWait) := by
  unfold keepAlive
  refine te_bind te_getCtx ?_
  intro a
  cases h : a.st.sid with
  | none => exact te_throw _
  | some sid =>
      refine te_bind (te_fetch script _ _) ?_
      intro r
      cases isWait with
      | true =>
          rw [if_pos rfl]
          exact te_bind (te_sleep rand 1 2) fun u => fun c => ⟨[], by simp⟩
      | false =>
          rw [if_neg (by simp)]
          exact te_bind (te_pure (⟨⟩ : PUnit)) fun u => fun c => ⟨[], by simp⟩

theorem te_get (script : Nat → SunoResponse) (rand : Nat → Nat)
    (songIds : Option (List String)) : TraceExtends (get script rand songIds) := by
  unfold get
  refine te_bind (te_keepAlive script rand false) ?_
  intro u
  refine te_bind (te_fetch script _ _) ?_
  intro r
  cases r <;> first
    | exact te_throw _
    | exact te_pure _

theorem te_pollLoop (script : Nat → SunoResponse) (rand : Nat → Nat)
    (songIds : List String) (startTime : Nat) :
    ∀ (fuel : Nat) (lastResponse : List AudioInfo),
      TraceExtends (pollLoop script rand songIds startTime fuel lastResponse) := by
  intro fuel
  induction fuel with
  | zero => intro lastResponse; exact te_throw _
  | succ n ih =>
      intro lastResponse
      show TraceExtends (pollLoop script rand songIds startTime (n + 1) lastResponse)
      unfold pollLoop
      refine te_bind te_getCtx ?_
      intro a
      by_cases h : a.now - startTime < 100000
      · rw [if_pos h]
        refine te_bind (te_get script rand _) ?_
        intro response
        by_cases hc : (allCompleted response || allError response) = true
        · rw [if_pos hc]; exact te_pure _
        · rw [if_neg hc]
          refine te_bind (te_sleep rand 3 6) ?_
          intro u
          refine te_bind (te_keepAlive script rand true) ?_
          intro u2
          exact ih response
      · rw [if_neg h]
        exact te_pure _

theorem te_generateSongs (script : Nat → SunoResponse) (rand : Nat → Nat)
    (wait_audio : Bool) : TraceExtends (generateSongs script rand wait_audio) := by
  unfold generateSongs
  refine te_bind (te_keepAlive script rand false) ?_
  intro u
  refine te_bind (te_fetch script _ _) ?_
  intro r
  cases hcl : clipsOf r with
  | none => exact te_throw _
  | some clips =>
      cases wait_audio with
      | true =>
          dsimp only
          rw [if_pos rfl]
          refine te_bind te_getCtx ?_
          intro b
          refine te_bind (te_sleep rand 5 5) ?_
          intro u2
          exact te_pollLoop script rand _ _ 30 []
      | false =>
          dsimp only
          rw [if_neg (by simp)]
          refine te_bind (te_keepAlive script rand true) ?_
          intro u2
          exact te_pure _

theorem te_lyricsLoop (script : Nat → SunoResponse) (rand : Nat → Nat)
    (generateId : String) :
    ∀ fuel : Nat, TraceExtends (lyricsLoop script rand generateId fuel) := by
  intro fuel
  induction fuel with
  | zero => exact te_throw _
  | succ n ih =>
      show TraceExtends (lyricsLoop script rand generateId (n + 1))
      unfold lyricsLoop
      refine te_bind (te_fetch script _ _) ?_
      intro r
      by_cases h : lyricsStatusOf r = some "complete"
      · rw [if_pos h]; exact te_pure _
      · rw [if_neg h]
        exact te_bind (te_sleep rand 2 2) fun u => ih

/-- After a renewal bound in front of a trace-extending continuation, the
first recorded event is the renewal request to the Clerk endpoint,
whatever the script answers. -/
theorem trace_first_keepAlive_bind (script : Nat → SunoResponse) (rand : Nat → Nat)
    {α : Type} (f : PUnit → SunoM α) (hf : ∀ a, TraceExtends (f a))
    (s : SunoState) (sid : String) (hsid : s.sid = some sid) :
    ∃ t, (RRes.ctx ((keepAlive script rand false >>= f) (initCtx s))).trace =
      SEv.req CLERK_BASE_URL (tokensPath sid) :: t := by
  have hsid' : (initCtx s).st.sid = some sid := hsid
  by_cases h : script 0 = .httpError
  · have hrun := keepAlive_httpError_run script rand false (initCtx s) sid hsid' h
    refine ⟨[], ?_⟩
    simp only [CM.bind_apply, hrun]
    simp [initCtx]
  · have hrun := keepAlive_false_run script rand (initCtx s) sid hsid' h
    obtain ⟨t', ht'⟩ := hf PUnit.unit (RRes.ctx (keepAlive script rand false (initCtx s)))
    refine ⟨t', ?_⟩
    rw [hrun] at ht'
    simp only [RRes.ctx_ok] at ht'
    simp only [CM.bind_apply]
    rw [hrun]
    dsimp only
    rw [ht']
    simp [initCtx]

end Clite.Suno

namespace Clite.Suno

theorem generate_first_event (script : Nat → SunoResponse) (rand : Nat → Nat)
    (wa : Bool) (s : SunoState) (sid : String) (hsid : s.sid = some sid) :
    ∃ t, (RRes.ctx (generate script rand wa (initCtx s))).trace =
      SEv.req CLERK_BASE_URL (tokensPath sid) :: t := by
  unfold generate
  exact trace_first_keepAlive_bind script rand _
    (fun a => te_generateSongs script rand wa) s sid hsid

theorem customGenerate_first_event (script : Nat → SunoResponse) (rand : Nat → Nat)
    (wa : Bool) (s : SunoState) (sid : String) (hsid : s.sid = some sid) :
    ∃ t, (RRes.ctx (customGenerate script rand wa (initCtx s))).trace =
      SEv.req CLERK_BASE_URL (tokensPath sid) :: t := by
  unfold customGenerate generateSongs
  refine trace_first_keepAlive_bind script rand _ ?_ s sid hsid
  intro a
  refine te_bind (te_fetch script _ _) ?_
  intro r
  cases hcl : clipsOf r with
  | none => exact te_throw _
  | some clips =>
      cases wa with
      | true =>
          dsimp only
          rw [if_pos rfl]
          refine te_bind te_getCtx ?_
          intro b
          refine te_bind (te_sleep rand 5 5) ?_
          intro u2
          exact te_pollLoop script rand _ _ 30 []
      | false =>
          dsimp only
          rw [if_neg (by simp)]
          refine te_bind (te_keepAlive script rand true) ?_
          intro u2
          exact te_pure _

theorem concatenate_first_event (script : Nat → SunoResponse) (rand : Nat → Nat)
    (s : SunoState) (sid : String) (hsid : s.sid = some sid) :
    ∃ t, (RRes.ctx (concatenate script rand (initCtx s))).trace =
      SEv.req CLERK_BASE_URL (tokensPath sid) :: t := by
  unfold concatenate
  exact trace_first_keepAlive_bind script rand _
    (fun a => te_fetch script _ _) s sid hsid

theorem generateLyrics_first_event (script : Nat → SunoResponse) (rand : Nat → Nat)
    (fuel : Nat) (s : SunoState) (sid : String) (hsid : s.sid = some sid) :
    ∃ t, (RRes.ctx (generateLyrics script rand fuel (initCtx s))).trace =
      SEv.req CLERK_BASE_URL (tokensPath sid) :: t := by
  unfold generateLyrics
  refine trace_first_keepAlive_bind script rand _ ?_ s sid hsid
  intro a
  refine te_bind (te_fetch script _ _) ?_
  intro g
  refine te_bind (te_lyricsLoop script rand _ fuel) ?_
  intro r
  cases r <;> exact te_pure _

theorem get_first_event (script : Nat → SunoResponse) (rand : Nat → Nat)
    (songIds : Option (List String)) (s : SunoState) (sid : String)
    (hsid : s.sid = some sid) :
    ∃ t, (RRes.ctx (get script rand songIds (initCtx s))).trace =
      SEv.req CLERK_BASE_URL (tokensPath sid) :: t := by
  unfold get
  refine trace_first_keepAlive_bind script rand _ ?_ s sid hsid
  intro a
  refine te_bind (te_fetch script _ _) ?_
  intro r
  cases r <;> first
    | exact te_throw _
    | exact te_pure _

theorem getClip_first_event (script : Nat → SunoResponse) (rand : Nat → Nat)
    (clipId : String) (s : SunoState) (sid : String) (hsid : s.sid = some sid) :
    ∃ t, (RRes.ctx (getClip script rand clipId (initCtx s))).trace =
      SEv.req CLERK_BASE_URL (tokensPath sid) :: t := by
  unfold getClip
  exact trace_first_keepAlive_bind script rand _
    (fun a => te_fetch script _ _) s sid hsid

theorem getCredits_first_event (script : Nat → SunoResponse) (rand : Nat → Nat)
    (s : SunoState) (sid : String) (hsid : s.sid = some sid) :
    ∃ t, (RRes.ctx (getCredits script rand (initCtx s))).trace =
      SEv.req CLERK_BASE_URL (tokensPath sid) :: t := by
  unfold getCredits
  exact trace_first_keepAlive_bind script rand _
    (fun a => te_fetch script _ _) s sid hsid

theorem extendAudio_trace (script : Nat → SunoResponse) (s : SunoState) :
    (RRes.ctx (extendAudio script (initCtx s))).trace =
      [SEv.req BASE_URL "/api/generate/v2/"] := by
  unfold extendAudio
  by_cases h : script 0 = .httpError
  · rw [fetchSunoApi_run_err script _ _ (initCtx s) h]
    simp [initCtx]
  · rw [fetchSunoApi_run_ok script _ _ (initCtx s) h]
    simp [initCtx]

end Clite.Suno

namespace Clite.FakeYou

theorem fetchFakeYouApi_run_env (script : Nat → FYResponse) (path : String)
    (c : FYCtx) (success : Bool) (fields : List (String × FYValue))
    (h : script c.scriptIdx = .env success fields) :
    fetchFakeYouApi script path c = .ok (success, fields)
      { c with scriptIdx := c.scriptIdx + 1, trace := c.trace ++ [.req path] } := by
  unfold fetchFakeYouApi
  rw [h]

theorem fetchFakeYouApi_run_err (script : Nat → FYResponse) (path : String)
    (c : FYCtx) (h : script c.scriptIdx = .httpError) :
    fetchFakeYouApi script path c = .err (.transportFailed path)
      { c with scriptIdx := c.scriptIdx + 1, trace := c.trace ++ [.req path] } := by
  unfold fetchFakeYouApi
  rw [h]

theorem request_run_apiFail (script : Nat → FYResponse) (path resultField : String)
    (c : FYCtx) (fields : List (String × FYValue))
    (h : script c.scriptIdx = .env false fields) :
    request script path resultField c = .err (.apiFailed path)
      { c with scriptIdx := c.scriptIdx + 1, trace := c.trace ++ [.req path] } := by
  unfold request
  simp only [CM.bind_apply]
  rw [fetchFakeYouApi_run_env script path c false fields h]
  simp [CM.throw]

theorem request_run_success (script : Nat → FYResponse) (path resultField : String)
    (c : FYCtx) (fields : List (String × FYValue))
    (h : script c.scriptIdx = .env true fields) :
    request script path resultField c = .ok (List.lookup resultField fields)
      { c with scriptIdx := c.scriptIdx + 1, trace := c.trace ++ [.req path] } := by
  unfold request
  simp only [CM.bind_apply]
  rw [fetchFakeYouApi_run_env script path c true fields h]
  simp [CM.pure]

theorem request_run_transport (script : Nat → FYResponse) (path resultField : String)
    (c : FYCtx) (h : script c.scriptIdx = .httpError) :
    request script path resultField c = .err (.transportFailed path)
      { c with scriptIdx := c.scriptIdx + 1, trace := c.trace ++ [.req path] } := by
  unfold request
  simp only [CM.bind_apply]
  rw [fetchFakeYouApi_run_err script path c h]

theorem deinit_run_success (script : Nat → FYResponse) (c : FYCtx)
    (fields : List (String × FYValue)) (h : script c.scriptIdx = .env true fields) :
    deinit script c = .ok ⟨⟩
      { c with st := ⟨none⟩, scriptIdx := c.scriptIdx + 1,
               trace := c.trace ++ [.req "v1/logout"] } := by
  unfold deinit
  simp only [CM.bind_apply]
  rw [fetchFakeYouApi_run_env script _ c true fields h]
  simp

end Clite.FakeYou

namespace Clite.Claims

/-- C1 counterexample: the claim says every listed public operation renews
before its own request, but the public extendAudio issues its generation
POST with no renewal at all: on a fully initialized instance its whole
trace is the single POST to the generation endpoint, and no renewal
request to the Clerk host occurs in it. -/
theorem C1_counterexample :
    (RRes.ctx (Suno.extendAudio (fun _ => Suno.SunoResponse.other)
        (Suno.initCtx ⟨some "sid0", some "tok0", some "cookie0"⟩))).trace =
      [Suno.SEv.req Suno.BASE_URL "/api/generate/v2/"] ∧
    ∀ sid, Suno.SEv.req Suno.CLERK_BASE_URL (Suno.tokensPath sid) ∉
      (RRes.ctx (Suno.extendAudio (fun _ => Suno.SunoResponse.other)
        (Suno.initCtx ⟨some "sid0", some "tok0", some "cookie0"⟩))).trace := by
  constructor
  · exact Suno.extendAudio_trace _ _
  · intro sid hmem
    rw [Suno.extendAudio_trace] at hmem
    simp only [List.mem_singleton] at hmem
    have hbase : Suno.CLERK_BASE_URL = Suno.BASE_URL := by
      injection hmem
    revert hbase
    unfold Suno.CLERK_BASE_URL Suno.BASE_URL
    decide

/-- C1 (amended): of the listed public operations, generate,
customGenerate (through generateSongs), concatenate, generateLyrics, get,
getClip and getCredits each perform the token renewal unconditionally as
their first recorded request, before their own request, for every
instance state carrying a session id and every scripted service behavior
and random stream; extendAudio alone performs no renewal: its trace is
exactly its own generation request. -/
theorem C1_theorem :
    ∀ (script : Nat → Suno.SunoResponse) (rand : Nat → Nat)
      (s : Suno.SunoState) (sid : String),
      s.sid = some sid →
      ((∀ wa, ∃ t, (RRes.ctx (Suno.generate script rand wa (Suno.initCtx s))).trace =
          Suno.SEv.req Suno.CLERK_BASE_URL (Suno.tokensPath sid) :: t) ∧
       (∀ wa, ∃ t, (RRes.ctx (Suno.customGenerate script rand wa (Suno.initCtx s))).trace =
          Suno.SEv.req Suno.CLERK_BASE_URL (Suno.tokensPath sid) :: t) ∧
       (∃ t, (RRes.ctx (Suno.concatenate script rand (Suno.initCtx s))).trace =
          Suno.SEv.req Suno.CLERK_BASE_URL (Suno.tokensPath sid) :: t) ∧
       (∀ fuel, ∃ t, (RRes.ctx (Suno.generateLyrics script rand fuel (Suno.initCtx s))).trace =
          Suno.SEv.req Suno.CLERK_BASE_URL (Suno.tokensPath sid) :: t) ∧
       (∀ songIds, ∃ t, (RRes.ctx (Suno.get script rand songIds (Suno.initCtx s))).trace =
          Suno.SEv.req Suno.CLERK_BASE_URL (Suno.tokensPath sid) :: t) ∧
       (∀ clipId, ∃ t, (RRes.ctx (Suno.getClip script rand clipId (Suno.initCtx s))).trace =
          Suno.SEv.req Suno.CLERK_BASE_URL (Suno.tokensPath sid) :: t) ∧
       (∃ t, (RRes.ctx (Suno.getCredits script rand (Suno.initCtx s))).trace =
          Suno.SEv.req Suno.CLERK_BASE_URL (Suno.tokensPath sid) :: t) ∧
       (∀ s2 : Suno.SunoState, (RRes.ctx (Suno.extendAudio script (Suno.initCtx s2))).trace =
          [Suno.SEv.req Suno.BASE_URL "/api/generate/v2/"])) := by
  intro script rand s sid hsid
  refine ⟨fun wa => Suno.generate_first_event script rand wa s sid hsid,
          fun wa => Suno.customGenerate_first_event script rand wa s sid hsid,
          Suno.concatenate_first_event script rand s sid hsid,
          fun fuel => Suno.generateLyrics_first_event script rand fuel s sid hsid,
          fun songIds => Suno.get_first_event script rand songIds s sid hsid,
          fun clipId => Suno.getClip_first_event script rand clipId s sid hsid,
          Suno.getCredits_first_event script rand s sid hsid,
          fun s2 => Suno.extendAudio_trace script s2⟩

/-- C1 witness: the amended statement holds on a concrete script, random
stream and initialized state. -/
theorem C1_witness :
    (∀ wa, ∃ t, (RRes.ctx (Suno.generate (fun _ => Suno.SunoResponse.clerkToken "jwt")
        (fun _ => 0) wa (Suno.initCtx ⟨some "sid0", none, none⟩))).trace =
      Suno.SEv.req Suno.CLERK_BASE_URL (Suno.tokensPath "sid0") :: t) ∧
    (∀ wa, ∃ t, (RRes.ctx (Suno.customGenerate (fun _ => Suno.SunoResponse.clerkToken "jwt")
        (fun _ => 0) wa (Suno.initCtx ⟨some "sid0", none, none⟩))).trace =
      Suno.SEv.req Suno.CLERK_BASE_URL (Suno.tokensPath "sid0") :: t) ∧
    (∃ t, (RRes.ctx (Suno.concatenate (fun _ => Suno.SunoResponse.clerkToken "jwt")
        (fun _ => 0) (Suno.initCtx ⟨some "sid0", none, none⟩))).trace =
      Suno.SEv.req Suno.CLERK_BASE_URL (Suno.tokensPath "sid0") :: t) ∧
    (∀ fuel, ∃ t, (RRes.ctx (Suno.generateLyrics (fun _ => Suno.SunoResponse.clerkToken "jwt")
        (fun _ => 0) fuel (Suno.initCtx ⟨some "sid0", none, none⟩))).trace =
      Suno.SEv.req Suno.CLERK_BASE_URL (Suno.tokensPath "sid0") :: t) ∧
    (∀ songIds, ∃ t, (RRes.ctx (Suno.get (fun _ => Suno.SunoResponse.clerkToken "jwt")
        (fun _ => 0) songIds (Suno.initCtx ⟨some "sid0", none, none⟩))).trace =
      Suno.SEv.req Suno.CLERK_BASE_URL (Suno.tokensPath "sid0") :: t) ∧
    (∀ clipId, ∃ t, (RRes.ctx (Suno.getClip (fun _ => Suno.SunoResponse.clerkToken "jwt")
        (fun _ => 0) clipId (Suno.initCtx ⟨some "sid0", none, none⟩))).trace =
      Suno.SEv.req Suno.CLERK_BASE_URL (Suno.tokensPath "sid0") :: t) ∧
    (∃ t, (RRes.ctx (Suno.getCredits (fun _ => Suno.SunoResponse.clerkToken "jwt")
        (fun _ => 0) (Suno.initCtx ⟨some "sid0", none, none⟩))).trace =
      Suno.SEv.req Suno.CLERK_BASE_URL (Suno.tokensPath "sid0") :: t) ∧
    (∀ s2 : Suno.SunoState, (RRes.ctx (Suno.extendAudio
        (fun _ => Suno.SunoResponse.clerkToken "jwt") (Suno.initCtx s2))).trace =
      [Suno.SEv.req Suno.BASE_URL "/api/generate/v2/"]) :=
  C1_theorem (fun _ => Suno.SunoResponse.clerkToken "jwt") (fun _ => 0)
    ⟨some "sid0", none, none⟩ "sid0" rfl

/-- C7: parseLyrics splits its input on newline, drops every line that is
empty after trimming, and rejoins with newline; on the example input the
blank and whitespace-only lines disappear and the trailing newline is
dropped. -/
theorem C7_theorem : Suno.parseLyrics "line1\n\n  \nline2\n" = "line1\nline2" := by
  decide

/-- C9: keepAlive on an instance whose session id was never set fails
locally with the session-not-set error before issuing any network
request: the run rejects and returns the context completely unchanged (no
trace event, no script consumption, no state change). -/
theorem C9_theorem (script : Nat → Suno.SunoResponse) (rand : Nat → Nat)
    (isWait : Bool) (c : Suno.SCtx) (h : c.st.sid = none) :
    Suno.keepAlive script rand isWait c = RRes.err Suno.SErr.sessionNotSet c :=
  Suno.keepAlive_noSid_run script rand isWait c h

/-- C9 witness: concrete run of keepAlive with no session id. -/
theorem C9_witness :
    Suno.keepAlive (fun _ => Suno.SunoResponse.other) (fun _ => 0) false
        (Suno.initCtx ⟨none, some "tok", none⟩) =
      RRes.err Suno.SErr.sessionNotSet (Suno.initCtx ⟨none, some "tok", none⟩) :=
  C9_theorem (fun _ => Suno.SunoResponse.other) (fun _ => 0) false
    (Suno.initCtx ⟨none, some "tok", none⟩) rfl

/-- C8 counterexample: FakeYou deinit is not effect-idempotent: on a
logged-in instance with a service that reports logout success, calling
deinit twice issues two logout requests where one call issues one, so the
observable effects of two calls differ from one call. -/
theorem C8_counterexample :
    (RRes.ctx ((FakeYou.deinit (fun _ => FakeYou.FYResponse.env true []) >>= fun _ =>
        FakeYou.deinit (fun _ => FakeYou.FYResponse.env true []))
        (FakeYou.initCtx ⟨some "cookie"⟩))).trace =
      [FakeYou.FEv.req "v1/logout", FakeYou.FEv.req "v1/logout"] ∧
    (RRes.ctx (FakeYou.deinit (fun _ => FakeYou.FYResponse.env true [])
        (FakeYou.initCtx ⟨some "cookie"⟩))).trace = [FakeYou.FEv.req "v1/logout"] ∧
    ([FakeYou.FEv.req "v1/logout", FakeYou.FEv.req "v1/logout"] ≠
      [FakeYou.FEv.req "v1/logout"]) :=
  ⟨rfl, rfl, by decide⟩

/-- C8 (amended): deinit clears the stored credentials in both clients.
Suno's deinit performs no request and is fully idempotent: running it
twice is literally the same outcome (state and trace) as running it once.
FakeYou's deinit is idempotent on the credential state when the service
reports success (the cookie is cleared and stays cleared) but it is not
effect-idempotent: every call issues one logout request. -/
theorem C8_theorem :
    (∀ c : Suno.SCtx,
       Suno.deinit c = RRes.ok ⟨⟩ { c with st := ⟨none, none, none⟩ } ∧
       (Suno.deinit >>= fun _ => Suno.deinit) c = Suno.deinit c) ∧
    (∀ (script : Nat → FakeYou.FYResponse) (c : FakeYou.FYCtx)
       (f1 f2 : List (String × FakeYou.FYValue)),
       script c.scriptIdx = FakeYou.FYResponse.env true f1 →
       script (c.scriptIdx + 1) = FakeYou.FYResponse.env true f2 →
       FakeYou.deinit script c = RRes.ok ⟨⟩
         { c with st := ⟨none⟩, scriptIdx := c.scriptIdx + 1,
                  trace := c.trace ++ [FakeYou.FEv.req "v1/logout"] } ∧
       (FakeYou.deinit script >>= fun _ => FakeYou.deinit script) c = RRes.ok ⟨⟩
         { c with st := ⟨none⟩, scriptIdx := c.scriptIdx + 2,
                  trace := c.trace ++ [FakeYou.FEv.req "v1/logout",
                    FakeYou.FEv.req "v1/logout"] }) := by
  constructor
  · intro c
    refine ⟨rfl, ?_⟩
    simp only [CM.bind_apply]
    rw [Suno.deinit_run c]
    dsimp only
    rw [Suno.deinit_run]
  · intro script c f1 f2 h1 h2
    refine ⟨FakeYou.deinit_run_success script c f1 h1, ?_⟩
    simp only [CM.bind_apply]
    rw [FakeYou.deinit_run_success script c f1 h1]
    dsimp only
    rw [FakeYou.deinit_run_success script
      (⟨⟨none⟩, c.scriptIdx + 1, c.trace ++ [FakeYou.FEv.req "v1/logout"]⟩ : FakeYou.FYCtx)
      f2 h2]
    simp

/-- C8 witness: the amended statement at a concrete context and script. -/
theorem C8_witness :
    (Suno.deinit (Suno.initCtx ⟨some "sid", some "tok", some "ck"⟩) =
       RRes.ok ⟨⟩ ⟨⟨none, none, none⟩, 0, 0, 0, []⟩ ∧
     (Suno.deinit >>= fun _ => Suno.deinit)
         (Suno.initCtx ⟨some "sid", some "tok", some "ck"⟩) =
       Suno.deinit (Suno.initCtx ⟨some "sid", some "tok", some "ck"⟩)) ∧
    (FakeYou.deinit (fun _ => FakeYou.FYResponse.env true [])
        (FakeYou.initCtx ⟨some "ck"⟩) =
      RRes.ok ⟨⟩ ⟨⟨none⟩, 1, [FakeYou.FEv.req "v1/logout"]⟩ ∧
     (FakeYou.deinit (fun _ => FakeYou.FYResponse.env true []) >>= fun _ =>
        FakeYou.deinit (fun _ => FakeYou.FYResponse.env true []))
        (FakeYou.initCtx ⟨some "ck"⟩) =
      RRes.ok ⟨⟩ ⟨⟨none⟩, 2,
        [FakeYou.FEv.req "v1/logout", FakeYou.FEv.req "v1/logout"]⟩) :=
  ⟨C8_theorem.1 (Suno.initCtx ⟨some "sid", some "tok", some "ck"⟩),
   C8_theorem.2 (fun _ => FakeYou.FYResponse.env true [])
     (FakeYou.initCtx ⟨some "ck"⟩) [] [] rfl rfl⟩

/-- C4 counterexample: the Suno authenticated-request helper does not
check any application-level success flag: a 2xx response whose body is an
envelope with success false is returned as a successful value instead of
failing with an ApiError. -/
theorem C4_counterexample :
    Suno.fetchSunoApi (fun _ => Suno.SunoResponse.envelope false) Suno.BASE_URL "/api/feed/"
        (Suno.initCtx ⟨some "sid", some "tok", none⟩) =
      RRes.ok (Suno.SunoResponse.envelope false)
        ⟨⟨some "sid", some "tok", none⟩, 1, 0, 0,
          [Suno.SEv.req Suno.BASE_URL "/api/feed/"]⟩ := rfl

/-- C4 (amended): FakeYou's authenticated-request helper fails with an
ApiError carrying the request path whenever the 2xx envelope reports
success false, and returns the named payload field when it reports true;
Suno's helper performs no envelope check at all: every 2xx body, however
shaped (including one whose success flag is false), is returned verbatim,
and only a non-2xx status fails. -/
theorem C4_theorem :
    (∀ (script : Nat → FakeYou.FYResponse) (path resultField : String)
       (c : FakeYou.FYCtx) (fields : List (String × FakeYou.FYValue)),
       script c.scriptIdx = FakeYou.FYResponse.env false fields →
       FakeYou.request script path resultField c =
         RRes.err (FakeYou.FErr.apiFailed path)
           { c with scriptIdx := c.scriptIdx + 1,
                    trace := c.trace ++ [FakeYou.FEv.req path] }) ∧
    (∀ (script : Nat → FakeYou.FYResponse) (path resultField : String)
       (c : FakeYou.FYCtx) (fields : List (String × FakeYou.FYValue)),
       script c.scriptIdx = FakeYou.FYResponse.env true fields →
       FakeYou.request script path resultField c =
         RRes.ok (List.lookup resultField fields)
           { c with scriptIdx := c.scriptIdx + 1,
                    trace := c.trace ++ [FakeYou.FEv.req path] }) ∧
    (∀ (script : Nat → Suno.SunoResponse) (base path : String) (c : Suno.SCtx),
       script c.scriptIdx ≠ Suno.SunoResponse.httpError →
       Suno.fetchSunoApi script base path c = RRes.ok (script c.scriptIdx)
         { c with scriptIdx := c.scriptIdx + 1,
                  trace := c.trace ++ [Suno.SEv.req base path] }) :=
  ⟨fun script path resultField c fields h =>
     FakeYou.request_run_apiFail script path resultField c fields h,
   fun script path resultField c fields h =>
     FakeYou.request_run_success script path resultField c fields h,
   fun script base path c h => Suno.fetchSunoApi_run_ok script base path c h⟩

/-- C4 witness: the amended statement at concrete scripts and contexts. -/
theorem C4_witness :
    (FakeYou.request (fun _ => FakeYou.FYResponse.env false []) "tts/list" "models"
        (FakeYou.initCtx ⟨none⟩) =
      RRes.err (FakeYou.FErr.apiFailed "tts/list")
        ⟨⟨none⟩, 1, [FakeYou.FEv.req "tts/list"]⟩) ∧
    (FakeYou.request (fun _ => FakeYou.FYResponse.env true
        [("models", FakeYou.FYValue.other)]) "tts/list" "models" (FakeYou.initCtx ⟨none⟩) =
      RRes.ok (List.lookup "models" [("models", FakeYou.FYValue.other)])
        ⟨⟨none⟩, 1, [FakeYou.FEv.req "tts/list"]⟩) ∧
    (Suno.fetchSunoApi (fun _ => Suno.SunoResponse.envelope false) Suno.BASE_URL "/api/feed/"
        (Suno.initCtx ⟨some "sid", some "tok", none⟩) =
      RRes.ok (Suno.SunoResponse.envelope false)
        ⟨⟨some "sid", some "tok", none⟩, 1, 0, 0,
          [Suno.SEv.req Suno.BASE_URL "/api/feed/"]⟩) :=
  ⟨C4_theorem.1 (fun _ => FakeYou.FYResponse.env false []) "tts/list" "models"
     (FakeYou.initCtx ⟨none⟩) [] rfl,
   C4_theorem.2.1 (fun _ => FakeYou.FYResponse.env true [("models", FakeYou.FYValue.other)])
     "tts/list" "models" (FakeYou.initCtx ⟨none⟩) [("models", FakeYou.FYValue.other)] rfl,
   C4_theorem.2.2 (fun _ => Suno.SunoResponse.envelope false) Suno.BASE_URL "/api/feed/"
     (Suno.initCtx ⟨some "sid", some "tok", none⟩) (by decide)⟩

end Clite.Claims

namespace Clite.Claims

/-- C10: on the immediate-return path of generateSongs (wait_audio false)
the normalized record's lyric is the raw metadata.prompt verbatim, while
get pipes a truthy prompt through the blank-line-stripping parseLyrics
and maps a missing prompt to the empty string; consequently there is a
raw clip that the two operations normalize to different lyric values. -/
theorem C10_theorem :
    (∀ clip : Suno.RawClip,
       (Suno.normalizeGenClip clip).lyric = clip.metadata.prompt) ∧
    (∀ clip : Suno.RawClip,
       (Suno.normalizeGetClip clip).lyric = some (match clip.metadata.prompt with
         | some p => if p = "" then "" else Suno.parseLyrics p
         | none => "")) ∧
    (∀ (script : Nat → Suno.SunoResponse) (rand : Nat → Nat) (c : Suno.SCtx)
       (sid : String) (clips : List Suno.RawClip),
       c.st.sid = some sid →
       script c.scriptIdx ≠ Suno.SunoResponse.httpError →
       script (c.scriptIdx + 1) = Suno.SunoResponse.generateResp clips →
       script (c.scriptIdx + 2) ≠ Suno.SunoResponse.httpError →
       ∃ c', Suno.generateSongs script rand false c =
         RRes.ok (clips.map Suno.normalizeGenClip) c') ∧
    (∀ (script : Nat → Suno.SunoResponse) (rand : Nat → Nat)
       (songIds : Option (List String)) (c : Suno.SCtx) (sid : String)
       (clips : List Suno.RawClip),
       c.st.sid = some sid →
       script c.scriptIdx ≠ Suno.SunoResponse.httpError →
       script (c.scriptIdx + 1) = Suno.SunoResponse.feed clips →
       ∃ c', Suno.get script rand songIds c =
         RRes.ok (clips.map Suno.normalizeGetClip) c') ∧
    (∃ clip : Suno.RawClip,
       (Suno.normalizeGenClip clip).lyric ≠ (Suno.normalizeGetClip clip).lyric) := by
  refine ⟨fun clip => rfl, fun clip => rfl, ?_, ?_, ?_⟩
  · intro script rand c sid clips hsid h0 h1 h2
    exact Suno.generateSongs_run_immediate script rand c sid clips hsid h0 h1 h2
  · intro script rand songIds c sid clips hsid h0 h1
    exact ⟨_, Suno.get_run script rand songIds c sid clips hsid h0 h1⟩
  · refine ⟨⟨"id1", none, none, none, none, "now", "m", "queued",
      ⟨some "a\n\nb", none, none, none, none, none⟩⟩, ?_⟩
    decide

/-- C10 witness: the run-level conjuncts at a concrete script and state. -/
theorem C10_witness :
    (∃ c', Suno.generateSongs
        (fun i => if i = 1 then Suno.SunoResponse.generateResp
            [⟨"id1", none, none, none, none, "now", "m", "queued",
              ⟨some "a\n\nb", none, none, none, none, none⟩⟩]
          else Suno.SunoResponse.clerkToken "jwt")
        (fun _ => 0) false (Suno.initCtx ⟨some "sid0", none, none⟩) =
      RRes.ok ([⟨"id1", none, none, none, none, "now", "m", "queued",
          ⟨some "a\n\nb", none, none, none, none, none⟩⟩].map Suno.normalizeGenClip) c') ∧
    (∃ c', Suno.get
        (fun i => if i = 1 then Suno.SunoResponse.feed
            [⟨"id1", none, none, none, none, "now", "m", "queued",
              ⟨some "a\n\nb", none, none, none, none, none⟩⟩]
          else Suno.SunoResponse.clerkToken "jwt")
        (fun _ => 0) none (Suno.initCtx ⟨some "sid0", none, none⟩) =
      RRes.ok ([⟨"id1", none, none, none, none, "now", "m", "queued",
          ⟨some "a\n\nb", none, none, none, none, none⟩⟩].map Suno.normalizeGetClip) c') :=
  ⟨C10_theorem.2.2.1
      (fun i => if i = 1 then Suno.SunoResponse.generateResp
          [⟨"id1", none, none, none, none, "now", "m", "queued",
            ⟨some "a\n\nb", none, none, none, none, none⟩⟩]
        else Suno.SunoResponse.clerkToken "jwt")
      (fun _ => 0) (Suno.initCtx ⟨some "sid0", none, none⟩) "sid0"
      [⟨"id1", none, none, none, none, "now", "m", "queued",
        ⟨some "a\n\nb", none, none, none, none, none⟩⟩]
      rfl (by decide) (by decide) (by decide),
   C10_theorem.2.2.2.1
      (fun i => if i = 1 then Suno.SunoResponse.feed
          [⟨"id1", none, none, none, none, "now", "m", "queued",
            ⟨some "a\n\nb", none, none, none, none, none⟩⟩]
        else Suno.SunoResponse.clerkToken "jwt")
      (fun _ => 0) none (Suno.initCtx ⟨some "sid0", none, none⟩) "sid0"
      [⟨"id1", none, none, none, none, "now", "m", "queued",
        ⟨some "a\n\nb", none, none, none, none, none⟩⟩]
      rfl (by decide) (by decide)⟩

end Clite.Claims

namespace Clite.FakeYou

theorem searchModel_run (script : Nat → FYResponse) (query : String)
    (language : Option String) (c : FYCtx) (fields : List (String × FYValue))
    (ms : List Model)
    (h : script c.scriptIdx = .env true fields)
    (hlook : List.lookup "models" fields = some (.models ms)) :
    searchModel script query language c =
      .ok (Sort.msort (modelLe language)
        (ms.filter fun m => Rx.regexTest (Rx.buildPattern query) m.title.data))
      { c with scriptIdx := c.scriptIdx + 1, trace := c.trace ++ [.req "tts/list"] } := by
  unfold searchModel listModels
  simp only [CM.bind_apply]
  rw [request_run_success script _ _ c fields h]
  rw [hlook]
  rfl

end Clite.FakeYou

namespace Clite.Claims

/-- C5: searching treats the query as a literal: the pattern built from
any query parses back to exactly the literal atom reading of the query
(escaping prevents any special interpretation and the construction cannot
fail), the test accepts a title exactly when it contains the query as a
case-insensitive whitespace-flexible literal substring, the returned list
is a permutation of the filtered model list, and the query C-plus-plus-dot
matches titles containing it literally and no others. -/
theorem C5_theorem :
    (∀ query : String, Rx.parsePattern (Rx.buildPattern query) =
       some (Rx.compileQuery (Rx.trimChars query.data))) ∧
    (∀ (query : String) (t : List Char),
       Rx.regexTest (Rx.buildPattern query) t = true ↔ Rx.LiteralFlexSubstring query t) ∧
    (∀ (script : Nat → FakeYou.FYResponse) (query : String)
       (language : Option String) (c : FakeYou.FYCtx)
       (fields : List (String × FakeYou.FYValue)) (ms : List FakeYou.Model),
       script c.scriptIdx = FakeYou.FYResponse.env true fields →
       List.lookup "models" fields = some (FakeYou.FYValue.models ms) →
       ∃ out, FakeYou.searchModel script query language c = RRes.ok out
           { c with scriptIdx := c.scriptIdx + 1,
                    trace := c.trace ++ [FakeYou.FEv.req "tts/list"] } ∧
         List.Perm out (ms.filter fun m =>
           Rx.regexTest (Rx.buildPattern query) m.title.data)) ∧
    (Rx.regexTest (Rx.buildPattern "C++.") "The C++. language".data = true) ∧
    (Rx.regexTest (Rx.buildPattern "C++.") "C plus plus".data = false) := by
  refine ⟨Rx.parsePattern_buildPattern, Rx.regexTest_buildPattern_iff, ?_, by decide, by decide⟩
  intro script query language c fields ms h hlook
  refine ⟨_, FakeYou.searchModel_run script query language c fields ms h hlook, ?_⟩
  exact Sort.msort_perm _ _

/-- C5 witness: the searchModel conjunct at a concrete script: the search
result is a permutation of the filter of the fetched list. -/
theorem C5_witness :
    ∃ out, FakeYou.searchModel
        (fun _ => FakeYou.FYResponse.env true [("models", FakeYou.FYValue.models
          [⟨"t1", "Sonic", "en-US"⟩, ⟨"t2", "Mario", "it-IT"⟩])])
        "son" none (FakeYou.initCtx ⟨none⟩) = RRes.ok out
        ⟨⟨none⟩, 1, [FakeYou.FEv.req "tts/list"]⟩ ∧
      List.Perm out ([⟨"t1", "Sonic", "en-US"⟩, ⟨"t2", "Mario", "it-IT"⟩].filter
        fun m => Rx.regexTest (Rx.buildPattern "son") m.title.data) :=
  C5_theorem.2.2.1
    (fun _ => FakeYou.FYResponse.env true [("models", FakeYou.FYValue.models
      [⟨"t1", "Sonic", "en-US"⟩, ⟨"t2", "Mario", "it-IT"⟩])])
    "son" none (FakeYou.initCtx ⟨none⟩)
    [("models", FakeYou.FYValue.models
      [⟨"t1", "Sonic", "en-US"⟩, ⟨"t2", "Mario", "it-IT"⟩])]
    [⟨"t1", "Sonic", "en-US"⟩, ⟨"t2", "Mario", "it-IT"⟩] rfl (by decide)

/-- C6 counterexample: ties among language-matching results are NOT broken
by title order: with hint en and two matching models whose titles are out
of order, searchModel returns them in their original list order (the
comparator returns minus-one for any pair of matching models and never
consults their titles). -/
theorem C6_counterexample :
    FakeYou.searchModel
        (fun _ => FakeYou.FYResponse.env true [("models", FakeYou.FYValue.models
          [⟨"t1", "b", "en-US"⟩, ⟨"t2", "a", "en-GB"⟩])])
        "" (some "en") (FakeYou.initCtx ⟨none⟩) =
      RRes.ok [⟨"t1", "b", "en-US"⟩, ⟨"t2", "a", "en-GB"⟩]
        ⟨⟨none⟩, 1, [FakeYou.FEv.req "tts/list"]⟩ ∧
    FakeYou.langMatches "en" ⟨"t1", "b", "en-US"⟩ = true ∧
    FakeYou.langMatches "en" ⟨"t2", "a", "en-GB"⟩ = true ∧
    (("a" : String) < "b") := by
  refine ⟨?_, by decide, by decide, String.lt_iff_toList_lt.mpr (by decide)⟩
  rw [FakeYou.searchModel_run _ "" (some "en") (FakeYou.initCtx ⟨none⟩)
    [("models", FakeYou.FYValue.models
      [⟨"t1", "b", "en-US"⟩, ⟨"t2", "a", "en-GB"⟩])]
    [⟨"t1", "b", "en-US"⟩, ⟨"t2", "a", "en-GB"⟩] rfl (by decide)]
  have hfilter : ([⟨"t1", "b", "en-US"⟩, ⟨"t2", "a", "en-GB"⟩] :
      List FakeYou.Model).filter
        (fun m => Rx.regexTest (Rx.buildPattern "") m.title.data) =
      [⟨"t1", "b", "en-US"⟩, ⟨"t2", "a", "en-GB"⟩] := by decide
  rw [hfilter]
  have hsort : Sort.msort (FakeYou.modelLe (some "en"))
      [(⟨"t1", "b", "en-US"⟩ : FakeYou.Model), ⟨"t2", "a", "en-GB"⟩] =
      [⟨"t1", "b", "en-US"⟩, ⟨"t2", "a", "en-GB"⟩] := by
    rw [Sort.msort.eq_def, dif_neg (by decide)]
    norm_num
    rw [Sort.msort.eq_def, dif_pos (by decide)]
    rw [Sort.msort.eq_def, dif_pos (by decide)]
    rw [Sort.merge_cons_cons, if_pos (by decide), Sort.merge_nil_left]
  rw [hsort]
  rfl

/-- C6 (amended): with a truthy two-letter language hint, every result
whose tag's first two characters equal the hint appears before every
result whose tag does not; the matching results keep their original
(filtered-list) relative order rather than being title-sorted, and the
non-matching results that follow are sorted by lexicographic title
order. -/
theorem C6_theorem :
    ∀ (script : Nat → FakeYou.FYResponse) (query : String) (lang : String)
      (c : FakeYou.FYCtx) (fields : List (String × FakeYou.FYValue))
      (ms : List FakeYou.Model),
      lang ≠ "" →
      script c.scriptIdx = FakeYou.FYResponse.env true fields →
      List.lookup "models" fields = some (FakeYou.FYValue.models ms) →
      ∃ S, FakeYou.searchModel script query (some lang) c =
          RRes.ok ((ms.filter fun m =>
              Rx.regexTest (Rx.buildPattern query) m.title.data).filter
                (FakeYou.langMatches lang) ++ S)
            { c with scriptIdx := c.scriptIdx + 1,
                     trace := c.trace ++ [FakeYou.FEv.req "tts/list"] } ∧
        List.Perm S ((ms.filter fun m =>
          Rx.regexTest (Rx.buildPattern query) m.title.data).filter
            fun m => !FakeYou.langMatches lang m) ∧
        Sort.SortedB FakeYou.titleLe S ∧
        ∀ m ∈ S, FakeYou.langMatches lang m = false := by
  intro script query lang c fields ms hlang h hlook
  have hrun := FakeYou.searchModel_run script query (some lang) c fields ms h hlook
  obtain ⟨S, hSeq, hSperm, hSsorted, hSp⟩ :=
    Sort.msort_sep (FakeYou.langMatches lang) (FakeYou.modelLe (some lang))
      FakeYou.titleLe
      (fun x y hx => FakeYou.modelLe_match_left lang hlang x y hx)
      (fun x y hx hy => FakeYou.modelLe_mismatch lang hlang x y hx hy)
      (fun x y hx hy => FakeYou.modelLe_nomatch lang hlang x y hx hy)
      FakeYou.titleLe_total
      (fun x y z => FakeYou.titleLe_trans x y z)
      (ms.filter fun m => Rx.regexTest (Rx.buildPattern query) m.title.data).length
      (ms.filter fun m => Rx.regexTest (Rx.buildPattern query) m.title.data)
      (Nat.le_refl _)
  refine ⟨S, ?_, hSperm, hSsorted, hSp⟩
  rw [hrun, hSeq]

/-- C6 witness: the amended statement at a concrete script with one
matching and two non-matching models. -/
theorem C6_witness :
    ∃ S, FakeYou.searchModel
        (fun _ => FakeYou.FYResponse.env true [("models", FakeYou.FYValue.models
          [⟨"t1", "zed", "it-IT"⟩, ⟨"t2", "alpha", "de-DE"⟩, ⟨"t3", "mid", "en-US"⟩])])
        "" (some "en") (FakeYou.initCtx ⟨none⟩) =
        RRes.ok (([⟨"t1", "zed", "it-IT"⟩, ⟨"t2", "alpha", "de-DE"⟩,
            ⟨"t3", "mid", "en-US"⟩].filter fun m =>
              Rx.regexTest (Rx.buildPattern "") m.title.data).filter
                (FakeYou.langMatches "en") ++ S)
          ⟨⟨none⟩, 1, [FakeYou.FEv.req "tts/list"]⟩ ∧
      List.Perm S (([⟨"t1", "zed", "it-IT"⟩, ⟨"t2", "alpha", "de-DE"⟩,
        ⟨"t3", "mid", "en-US"⟩].filter fun m =>
          Rx.regexTest (Rx.buildPattern "") m.title.data).filter
            fun m => !FakeYou.langMatches "en" m) ∧
      Sort.SortedB FakeYou.titleLe S ∧
      ∀ m ∈ S, FakeYou.langMatches "en" m = false :=
  C6_theorem
    (fun _ => FakeYou.FYResponse.env true [("models", FakeYou.FYValue.models
      [⟨"t1", "zed", "it-IT"⟩, ⟨"t2", "alpha", "de-DE"⟩, ⟨"t3", "mid", "en-US"⟩])])
    "" "en" (FakeYou.initCtx ⟨none⟩)
    [("models", FakeYou.FYValue.models
      [⟨"t1", "zed", "it-IT"⟩, ⟨"t2", "alpha", "de-DE"⟩, ⟨"t3", "mid", "en-US"⟩])]
    [⟨"t1", "zed", "it-IT"⟩, ⟨"t2", "alpha", "de-DE"⟩, ⟨"t3", "mid", "en-US"⟩]
    (by decide) rfl (by decide)

end Clite.Claims

namespace Clite.FakeYou

theorem wfjLoop_run (script : Nat → FYResponse) (jobToken : String) (pollInterval : Nat)
    (jobs : Nat → FYJob)
    (hs : ∀ j, script j = .env true [("state", .job (jobs j))]) :
    ∀ (n : Nat), ∀ (k fuel : Nat) (c : FYCtx),
      c.scriptIdx = k →
      (∀ m, m < n → (jobs (k + m)).status = "pending" ∨ (jobs (k + m)).status = "started") →
      ¬((jobs (k + n)).status = "pending" ∨ (jobs (k + n)).status = "started") →
      n < fuel →
      ∃ c', wfjLoop script jobToken pollInterval fuel c =
        .ok (some (.job (jobs (k + n)))) c' ∧ c'.scriptIdx = k + n + 1 ∧ c'.st = c.st := by
  intro n
  induction n with
  | zero =>
      intro k fuel c hk hpre hterm hfuel
      cases fuel with
      | zero => omega
      | succ f =>
          have hsk : script c.scriptIdx = .env true [("state", .job (jobs k))] := by
            rw [hk]; exact hs k
          simp only [wfjLoop, CM.bind_apply]
          rw [request_run_success script _ _ c [("state", .job (jobs k))] hsk]
          have hlook : List.lookup "state" [("state", FYValue.job (jobs k))] =
              some (FYValue.job (jobs k)) := by simp
          rw [hlook]
          dsimp only
          rw [Nat.add_zero] at hterm
          push_neg at hterm
          have hst : jobStatusOf (some (FYValue.job (jobs k))) = some (jobs k).status := rfl
          rw [hst]
          rw [if_neg (by simp [hterm.1, hterm.2])]
          exact ⟨_, rfl, by simp [hk], by simp⟩
  | succ n ih =>
      intro k fuel c hk hpre hterm hfuel
      cases fuel with
      | zero => omega
      | succ f =>
          have hsk : script c.scriptIdx = .env true [("state", .job (jobs k))] := by
            rw [hk]; exact hs k
          simp only [wfjLoop, CM.bind_apply]
          rw [request_run_success script _ _ c [("state", .job (jobs k))] hsk]
          have hlook : List.lookup "state" [("state", FYValue.job (jobs k))] =
              some (FYValue.job (jobs k)) := by simp
          rw [hlook]
          dsimp only
          have hst : jobStatusOf (some (FYValue.job (jobs k))) = some (jobs k).status := rfl
          rw [hst]
          have hk0 : (jobs k).status = "pending" ∨ (jobs k).status = "started" := by
            have := hpre 0 (by omega)
            simpa using this
          rw [if_pos (by rcases hk0 with h | h <;> simp [h])]
          simp only [CM.bind_apply, CM.modifyCtx_apply]
          obtain ⟨c', heq, hidx', hst'⟩ := ih (k + 1) f
            (⟨c.st, c.scriptIdx + 1,
              (c.trace ++ [FEv.req ("tts/job/" ++ jobToken)]) ++
                [FEv.sleepEv pollInterval]⟩ : FYCtx)
            (by simp [hk])
            (by intro m hm
                have := hpre (m + 1) (by omega)
                have harith : k + (m + 1) = k + 1 + m := by omega
                rw [harith] at this
                exact this)
            (by have harith : k + (n + 1) = k + 1 + n := by omega
                rw [harith] at hterm
                exact hterm)
            (by omega)
          refine ⟨c', ?_, by omega, by simpa using hst'⟩
          have harith : k + 1 + n = k + (n + 1) := by omega
          rw [harith] at heq
          rw [← heq]

end Clite.FakeYou

namespace Clite.FakeYou

theorem waitForJobCompletion_run (script : Nat → FYResponse) (jobToken : String)
    (pollInterval : Nat) (jobs : Nat → FYJob)
    (hs : ∀ j, script j = .env true [("state", .job (jobs j))])
    (n fuel : Nat) (s : FYState)
    (hpre : ∀ m, m < n → (jobs m).status = "pending" ∨ (jobs m).status = "started")
    (hterm : ¬((jobs n).status = "pending" ∨ (jobs n).status = "started"))
    (hfuel : n < fuel) :
    ((jobs n).status = "complete_success" →
      ∃ c', waitForJobCompletion script jobToken pollInterval fuel (initCtx s) =
        .ok (some (.job (jobs n))) c' ∧ c'.scriptIdx = n + 1) ∧
    ((jobs n).status ≠ "complete_success" →
      ∃ c', waitForJobCompletion script jobToken pollInterval fuel (initCtx s) =
        .err (.jobFailed (some (jobs n).status)) c' ∧ c'.scriptIdx = n + 1) := by
  obtain ⟨c', heq, hidx, hst⟩ := wfjLoop_run script jobToken pollInterval jobs hs n 0 fuel
    (initCtx s) rfl (by simpa using hpre) (by simpa using hterm) hfuel
  rw [Nat.zero_add] at heq hidx
  constructor
  · intro hsucc
    refine ⟨c', ?_, hidx⟩
    unfold waitForJobCompletion
    simp only [CM.bind_apply]
    rw [heq]
    dsimp only
    rw [if_neg (by simp [jobStatusOf, hsucc])]
    rfl
  · intro hfail
    refine ⟨c', ?_, hidx⟩
    unfold waitForJobCompletion
    simp only [CM.bind_apply]
    rw [heq]
    dsimp only
    rw [if_pos (by simp [jobStatusOf, hfail])]
    rfl

end Clite.FakeYou

namespace Clite.Suno

theorem pollLoop_step (script : Nat → SunoResponse) (rand : Nat → Nat)
    (songIds : List String) (startTime : Nat) (reads : Nat → List RawClip)
    (i0 : Nat) (sid : String)
    (hscript : ∀ m, script (i0 + 3 * m) ≠ .httpError ∧
        script (i0 + 3 * m + 1) = .feed (reads m) ∧
        script (i0 + 3 * m + 2) ≠ .httpError)
    (fuel k : Nat) (last : List AudioInfo) (c : SCtx)
    (hsid : c.st.sid = some sid)
    (hidx : c.scriptIdx = i0 + 3 * k)
    (hnow : c.now - startTime < 100000) :
    (terminalRead (reads k) = true →
      ∃ c', pollLoop script rand songIds startTime (fuel + 1) last c =
        .ok ((reads k).map normalizeGetClip) c' ∧ c'.scriptIdx = i0 + 3 * k + 2) ∧
    (terminalRead (reads k) = false →
      ∃ c', pollLoop script rand songIds startTime (fuel + 1) last c =
          pollLoop script rand songIds startTime fuel ((reads k).map normalizeGetClip) c' ∧
        c'.st.sid = some sid ∧ c'.scriptIdx = i0 + 3 * (k + 1) ∧
        c.now + 4000 ≤ c'.now ∧ c'.now ≤ c.now + 8000) := by
  have h0 : script c.scriptIdx ≠ .httpError := by rw [hidx]; exact (hscript k).1
  have h1 : script (c.scriptIdx + 1) = .feed (reads k) := by rw [hidx]; exact (hscript k).2.1
  have h2 : script (c.scriptIdx + 2) ≠ .httpError := by rw [hidx]; exact (hscript k).2.2
  obtain ⟨C1, hC1, hC1sid, hC1idx, hC1rand, hC1now⟩ :
      ∃ C1, get script rand (some songIds) c = .ok ((reads k).map normalizeGetClip) C1 ∧
        C1.st.sid = some sid ∧ C1.scriptIdx = c.scriptIdx + 2 ∧
        C1.randIdx = c.randIdx ∧ C1.now = c.now :=
    ⟨_, get_run script rand (some songIds) c sid (reads k) hsid h0 h1, hsid, rfl, rfl, rfl⟩
  constructor
  · intro hterm
    refine ⟨C1, ?_, by omega⟩
    simp only [pollLoop, CM.bind_apply, CM.getCtx_apply]
    rw [if_pos hnow]
    simp only [CM.bind_apply]
    rw [hC1]
    dsimp only
    rw [if_pos (by unfold terminalRead at hterm; exact hterm)]
    rfl
  · intro hterm
    obtain ⟨C2, hC2, hC2sid, hC2idx, hC2now⟩ :
        ∃ C2, sleepM rand 3 6 C1 = .ok ⟨⟩ C2 ∧ C2.st.sid = some sid ∧
          C2.scriptIdx = C1.scriptIdx ∧
          (C1.now + 3000 ≤ C2.now ∧ C2.now ≤ C1.now + 6000) :=
      ⟨_, sleepM_run_rand rand 3 6 C1 (by omega), hC1sid, rfl, by
        dsimp only
        have hmin : (min 3 6 : Nat) = 3 := by norm_num
        have hmax : (max 3 6 : Nat) = 6 := by norm_num
        rw [hmin, hmax]
        omega⟩
    have hscr2 : script C2.scriptIdx ≠ .httpError := by
      rw [hC2idx, hC1idx]; exact h2
    simp only [pollLoop, CM.bind_apply, CM.getCtx_apply]
    rw [if_pos hnow]
    simp only [CM.bind_apply]
    rw [hC1]
    dsimp only
    rw [if_neg (by unfold terminalRead at hterm; simp [hterm])]
    simp only [CM.bind_apply]
    rw [hC2]
    dsimp only
    rw [keepAlive_true_run script rand C2 sid hC2sid hscr2]
    dsimp only
    refine ⟨_, rfl, hC2sid, ?_, ?_, ?_⟩
    · dsimp only
      omega
    · dsimp only
      omega
    · dsimp only
      have : rand C2.randIdx % 2 < 2 := Nat.mod_lt _ (by omega)
      omega

end Clite.Suno

namespace Clite.Suno

theorem pollLoop_reach_terminal (script : Nat → SunoResponse) (rand : Nat → Nat)
    (songIds : List String) (startTime : Nat) (reads : Nat → List RawClip)
    (i0 : Nat) (sid : String)
    (hscript : ∀ m, script (i0 + 3 * m) ≠ .httpError ∧
        script (i0 + 3 * m + 1) = .feed (reads m) ∧
        script (i0 + 3 * m + 2) ≠ .httpError) :
    ∀ n fuel k last (c : SCtx), n < fuel →
      c.st.sid = some sid →
      c.scriptIdx = i0 + 3 * k →
      startTime ≤ c.now →
      c.now + 8000 * n < startTime + 100000 →
      (∀ m, m < n → terminalRead (reads (k + m)) = false) →
      terminalRead (reads (k + n)) = true →
      ∃ c', pollLoop script rand songIds startTime fuel last c =
        .ok ((reads (k + n)).map normalizeGetClip) c' ∧
        c'.scriptIdx = i0 + 3 * (k + n) + 2 := by
  intro n
  induction n with
  | zero =>
    intro fuel k last c hfuel hsid hidx hstart hbound _ hterm
    obtain ⟨f, rfl⟩ : ∃ f, fuel = f + 1 := ⟨fuel - 1, by omega⟩
    obtain ⟨c', hc', hcidx⟩ :=
      (pollLoop_step script rand songIds startTime reads i0 sid hscript f k last c
        hsid hidx (by omega)).1 (by simpa using hterm)
    simp only [Nat.add_zero]
    exact ⟨c', hc', by omega⟩
  | succ n ih =>
    intro fuel k last c hfuel hsid hidx hstart hbound hm hterm
    obtain ⟨f, rfl⟩ : ∃ f, fuel = f + 1 := ⟨fuel - 1, by omega⟩
    have hnt : terminalRead (reads k) = false := by simpa using hm 0 (by omega)
    obtain ⟨c', hstep, hsid', hidx', hlo, hhi⟩ :=
      (pollLoop_step script rand songIds startTime reads i0 sid hscript f k last c
        hsid hidx (by omega)).2 hnt
    have hterm' : terminalRead (reads (k + 1 + n)) = true := by
      have he : k + 1 + n = k + (n + 1) := by omega
      rw [he]; exact hterm
    obtain ⟨c'', hrec, hrecidx⟩ := ih f (k + 1) ((reads k).map normalizeGetClip) c'
      (by omega) hsid' hidx' (by omega) (by omega)
      (fun m hm' => by
        have he : k + 1 + m = k + (m + 1) := by omega
        rw [he]; exact hm (m + 1) (by omega))
      hterm'
    have he : k + 1 + n = k + (n + 1) := by omega
    rw [he] at hrec
    refine ⟨c'', ?_, by omega⟩
    rw [hstep]
    exact hrec

theorem pollLoop_deadline (script : Nat → SunoResponse) (rand : Nat → Nat)
    (songIds : List String) (startTime : Nat) (reads : Nat → List RawClip)
    (i0 : Nat) (sid : String)
    (hscript : ∀ m, script (i0 + 3 * m) ≠ .httpError ∧
        script (i0 + 3 * m + 1) = .feed (reads m) ∧
        script (i0 + 3 * m + 2) ≠ .httpError)
    (hall : ∀ m, terminalRead (reads m) = false) :
    ∀ fuel k last (c : SCtx), 0 < fuel →
      c.st.sid = some sid →
      c.scriptIdx = i0 + 3 * k →
      startTime ≤ c.now →
      100000 + 8000 ≤ (c.now - startTime) + 4000 * fuel →
      (c.now - startTime < 100000 ∨
        (0 < k ∧ last = (reads (k - 1)).map normalizeGetClip)) →
      ∃ j c', pollLoop script rand songIds startTime fuel last c =
        .ok ((reads j).map normalizeGetClip) c' ∧
        c'.scriptIdx = i0 + 3 * (j + 1) ∧ startTime + 100000 ≤ c'.now := by
  intro fuel
  induction fuel with
  | zero =>
    intro k last c h0 _ _ _ _ _
    exact absurd h0 (Nat.lt_irrefl 0)
  | succ f ih =>
    intro k last c _ hsid hidx hstart hbound hlast
    by_cases hddl : c.now - startTime < 100000
    · obtain ⟨c', hstep, hsid', hidx', hlo, hhi⟩ :=
        (pollLoop_step script rand songIds startTime reads i0 sid hscript f k last c
          hsid hidx hddl).2 (hall k)
      have hf : 0 < f := by omega
      obtain ⟨j, c'', hrec, hridx, hcnow⟩ := ih (k + 1) ((reads k).map normalizeGetClip) c'
        hf hsid' hidx' (by omega) (by omega) (Or.inr ⟨by omega, by simp⟩)
      exact ⟨j, c'', by rw [hstep]; exact hrec, hridx, hcnow⟩
    · obtain ⟨hk, hj⟩ := hlast.resolve_left hddl
      refine ⟨k - 1, c, ?_, by omega, by omega⟩
      simp only [pollLoop, CM.bind_apply, CM.getCtx_apply]
      rw [if_neg hddl, hj]
      rfl

end Clite.Suno

namespace Clite.Suno

theorem generateSongs_wait_prelude (script : Nat → SunoResponse) (rand : Nat → Nat)
    (c0 : SCtx) (sid : String) (clips : List RawClip)
    (hsid : c0.st.sid = some sid)
    (h0 : script c0.scriptIdx ≠ .httpError)
    (h1 : script (c0.scriptIdx + 1) = .generateResp clips) :
    ∃ c1, generateSongs script rand true c0 =
        pollLoop script rand (clips.map fun clip => clip.id) c0.now 30 [] c1 ∧
      c1.st.sid = some sid ∧ c1.scriptIdx = c0.scriptIdx + 2 ∧ c1.now = c0.now + 5000 := by
  unfold generateSongs
  simp only [CM.bind_apply]
  rw [keepAlive_false_run script rand c0 sid hsid h0]
  dsimp only
  rw [fetchSunoApi_run_ok script _ _ _ (by simp [h1])]
  dsimp only
  rw [h1]
  simp only [clipsOf]
  rw [if_pos (by simp)]
  simp only [CM.bind_apply, CM.getCtx_apply]
  rw [sleepM_run_fixed rand 5]
  dsimp only
  exact ⟨_, rfl, hsid, rfl, rfl⟩

end Clite.Suno

namespace Clite.Suno

theorem generateSongs_first_terminal (script : Nat → SunoResponse) (rand : Nat → Nat)
    (s : SunoState) (sid : String) (clips : List RawClip)
    (reads : Nat → List RawClip) (n : Nat)
    (hsid : s.sid = some sid)
    (h0 : script 0 ≠ .httpError)
    (h1 : script 1 = .generateResp clips)
    (hscript : ∀ m, script (2 + 3 * m) ≠ .httpError ∧
        script (2 + 3 * m + 1) = .feed (reads m) ∧
        script (2 + 3 * m + 2) ≠ .httpError)
    (hn : n ≤ 11)
    (hpre : ∀ m, m < n → terminalRead (reads m) = false)
    (hterm : terminalRead (reads n) = true) :
    ∃ c', generateSongs script rand true (initCtx s) =
      .ok ((reads n).map normalizeGetClip) c' ∧ c'.scriptIdx = 2 + 3 * n + 2 := by
  obtain ⟨c1, heq, hsid1, hidx1, hnow1⟩ :=
    generateSongs_wait_prelude script rand (initCtx s) sid clips hsid h0 h1
  simp only [initCtx] at hidx1 hnow1
  have hstart0 : (initCtx s).now = 0 := rfl
  rw [hstart0] at heq
  obtain ⟨c', hrec, hcidx⟩ := pollLoop_reach_terminal script rand
    (clips.map fun clip => clip.id) 0 reads 2 sid hscript n 30 0 [] c1
    (by omega) hsid1 (by omega) (by omega) (by omega)
    (fun m hm => by rw [Nat.zero_add]; exact hpre m hm)
    (by rw [Nat.zero_add]; exact hterm)
  rw [Nat.zero_add] at hrec hcidx
  exact ⟨c', heq.trans hrec, by omega⟩

theorem generateSongs_deadline (script : Nat → SunoResponse) (rand : Nat → Nat)
    (s : SunoState) (sid : String) (clips : List RawClip)
    (reads : Nat → List RawClip)
    (hsid : s.sid = some sid)
    (h0 : script 0 ≠ .httpError)
    (h1 : script 1 = .generateResp clips)
    (hscript : ∀ m, script (2 + 3 * m) ≠ .httpError ∧
        script (2 + 3 * m + 1) = .feed (reads m) ∧
        script (2 + 3 * m + 2) ≠ .httpError)
    (hall : ∀ m, terminalRead (reads m) = false) :
    ∃ j c', generateSongs script rand true (initCtx s) =
      .ok ((reads j).map normalizeGetClip) c' ∧
      c'.scriptIdx = 2 + 3 * (j + 1) ∧ 100000 ≤ c'.now := by
  obtain ⟨c1, heq, hsid1, hidx1, hnow1⟩ :=
    generateSongs_wait_prelude script rand (initCtx s) sid clips hsid h0 h1
  simp only [initCtx] at hidx1 hnow1
  have hstart0 : (initCtx s).now = 0 := rfl
  rw [hstart0] at heq
  obtain ⟨j, c', hrec, hridx, hcnow⟩ := pollLoop_deadline script rand
    (clips.map fun clip => clip.id) 0 reads 2 sid hscript hall 30 0 [] c1
    (by omega) hsid1 (by omega) (by omega) (by omega) (Or.inl (by omega))
  exact ⟨j, c', heq.trans hrec, hridx, by omega⟩

end Clite.Suno

namespace Clite.Claims

/-- C2 counterexample: the claim says that a scripted sequence whose first
terminal status is in the failure set makes the completion-polling loop
fail with a job-failed error, for both services.  On the Suno side the
poll inside generateSongs treats an all-error feed read exactly like a
success read: on a script whose first feed read has every clip in status
error, generateSongs returns an ordinary ok result carrying that all-error
read, and no error is raised. -/
theorem C2_counterexample :
    ∃ resp c',
      Suno.generateSongs
        (fun i => if i = 1 then
            Suno.SunoResponse.generateResp [⟨"seed", none, none, none, none, "t0", "m0",
              "submitted", ⟨none, none, none, none, none, none⟩⟩]
          else if (i - 2) % 3 = 1 then
            Suno.SunoResponse.feed [⟨"c1", none, none, none, none, "t1", "m1", "error",
              ⟨none, none, none, none, none, none⟩⟩]
          else Suno.SunoResponse.clerkToken "jwt")
        (fun _ => 0) true (Suno.initCtx ⟨some "sid0", none, none⟩) =
      RRes.ok resp c' ∧ Suno.allError resp = true :=
  ⟨_, _, rfl, rfl⟩

end Clite.Claims

namespace Clite.Claims

/-- C2 (amended): for the FakeYou do-while poll the claim holds as stated:
on a scripted sequence of job reads whose first terminal status (first
status outside pending/started) is complete_success, waitForJobCompletion
returns ok with that job after exactly that read, and on a first terminal
status other than complete_success it fails with a job-failed error
carrying that status — it raises if and only if the first terminal status
is a failure status.  For the Suno deadline-bound poll inside
generateSongs the first half holds but the second does not: the first
terminal feed read (all clips streaming/complete, or all clips in status
error alike) is returned as an ordinary ok value after exactly that read,
and no job-failed error exists on this path. -/
theorem C2_theorem :
    (∀ (script : Nat → FakeYou.FYResponse) (jobToken : String) (pollInterval : Nat)
        (jobs : Nat → FakeYou.FYJob) (n fuel : Nat) (s : FakeYou.FYState),
      (∀ j, script j = .env true [("state", .job (jobs j))]) →
      (∀ m, m < n → (jobs m).status = "pending" ∨ (jobs m).status = "started") →
      ¬((jobs n).status = "pending" ∨ (jobs n).status = "started") →
      n < fuel →
      (((jobs n).status = "complete_success" →
        ∃ c', FakeYou.waitForJobCompletion script jobToken pollInterval fuel
            (FakeYou.initCtx s) =
          RRes.ok (some (.job (jobs n))) c' ∧ c'.scriptIdx = n + 1) ∧
      ((jobs n).status ≠ "complete_success" →
        ∃ c', FakeYou.waitForJobCompletion script jobToken pollInterval fuel
            (FakeYou.initCtx s) =
          RRes.err (.jobFailed (some (jobs n).status)) c' ∧ c'.scriptIdx = n + 1))) ∧
    (∀ (script : Nat → Suno.SunoResponse) (rand : Nat → Nat) (s : Suno.SunoState)
        (sid : String) (clips : List Suno.RawClip) (reads : Nat → List Suno.RawClip)
        (n : Nat),
      s.sid = some sid →
      script 0 ≠ .httpError →
      script 1 = .generateResp clips →
      (∀ m, script (2 + 3 * m) ≠ .httpError ∧
        script (2 + 3 * m + 1) = .feed (reads m) ∧
        script (2 + 3 * m + 2) ≠ .httpError) →
      n ≤ 11 →
      (∀ m, m < n → Suno.terminalRead (reads m) = false) →
      Suno.terminalRead (reads n) = true →
      ∃ c', Suno.generateSongs script rand true (Suno.initCtx s) =
        RRes.ok ((reads n).map Suno.normalizeGetClip) c' ∧
        c'.scriptIdx = 2 + 3 * n + 2) :=
  ⟨fun script jobToken pollInterval jobs n fuel s hs hpre hterm hfuel =>
    FakeYou.waitForJobCompletion_run script jobToken pollInterval jobs hs n fuel s
      hpre hterm hfuel,
   fun script rand s sid clips reads n hsid h0 h1 hscript hn hpre hterm =>
    Suno.generateSongs_first_terminal script rand s sid clips reads n hsid h0 h1
      hscript hn hpre hterm⟩

end Clite.Claims

namespace Clite.Claims

/-- C2 witness: the amended statement at concrete inputs.  A FakeYou
script reading pending then complete_success returns ok after the second
read; one reading started then dead fails with the job-failed error
carrying dead; a Suno script whose first feed read is a single complete
clip returns that read, normalized, as an ok value after four requests. -/
theorem C2_witness :
    (∃ c', FakeYou.waitForJobCompletion
        (fun j => .env true [("state", .job ⟨"tok",
          if j = 0 then "pending" else "complete_success", none⟩)])
        "jt" 2000 2 (FakeYou.initCtx ⟨none⟩) =
      RRes.ok (some (.job ⟨"tok", "complete_success", none⟩)) c' ∧
      c'.scriptIdx = 2) ∧
    (∃ c', FakeYou.waitForJobCompletion
        (fun j => .env true [("state", .job ⟨"tok",
          if j = 0 then "started" else "dead", none⟩)])
        "jt" 2000 2 (FakeYou.initCtx ⟨none⟩) =
      RRes.err (FakeYou.FErr.jobFailed (some "dead")) c' ∧
      c'.scriptIdx = 2) ∧
    (∃ c', Suno.generateSongs
        (fun i => if i = 1 then
            Suno.SunoResponse.generateResp [⟨"seed", none, none, none, none, "t0", "m0",
              "submitted", ⟨none, none, none, none, none, none⟩⟩]
          else if (i - 2) % 3 = 1 then
            Suno.SunoResponse.feed [⟨"c1", none, none, none, none, "t1", "m1", "complete",
              ⟨none, none, none, none, none, none⟩⟩]
          else Suno.SunoResponse.clerkToken "jwt")
        (fun _ => 0) true (Suno.initCtx ⟨some "sid0", none, none⟩) =
      RRes.ok ([Suno.RawClip.mk "c1" none none none none "t1" "m1" "complete"
          ⟨none, none, none, none, none, none⟩].map Suno.normalizeGetClip) c' ∧
      c'.scriptIdx = 4) :=
  ⟨(C2_theorem.1
      (fun j => .env true [("state", .job ⟨"tok",
        if j = 0 then "pending" else "complete_success", none⟩)])
      "jt" 2000
      (fun j => ⟨"tok", if j = 0 then "pending" else "complete_success", none⟩)
      1 2 ⟨none⟩ (fun _ => rfl)
      (by
        intro m hm
        have hm0 : m = 0 := by omega
        subst hm0
        exact Or.inl rfl)
      (by decide) (by omega)).1 rfl,
   (C2_theorem.1
      (fun j => .env true [("state", .job ⟨"tok",
        if j = 0 then "started" else "dead", none⟩)])
      "jt" 2000
      (fun j => ⟨"tok", if j = 0 then "started" else "dead", none⟩)
      1 2 ⟨none⟩ (fun _ => rfl)
      (by
        intro m hm
        have hm0 : m = 0 := by omega
        subst hm0
        exact Or.inr rfl)
      (by decide) (by omega)).2 (by decide),
   C2_theorem.2
      (fun i => if i = 1 then
          Suno.SunoResponse.generateResp [⟨"seed", none, none, none, none, "t0", "m0",
            "submitted", ⟨none, none, none, none, none, none⟩⟩]
        else if (i - 2) % 3 = 1 then
          Suno.SunoResponse.feed [⟨"c1", none, none, none, none, "t1", "m1", "complete",
            ⟨none, none, none, none, none, none⟩⟩]
        else Suno.SunoResponse.clerkToken "jwt")
      (fun _ => 0) ⟨some "sid0", none, none⟩ "sid0"
      [⟨"seed", none, none, none, none, "t0", "m0", "submitted",
        ⟨none, none, none, none, none, none⟩⟩]
      (fun _ => [⟨"c1", none, none, none, none, "t1", "m1", "complete",
        ⟨none, none, none, none, none, none⟩⟩])
      0 rfl (by decide) rfl
      (by
        intro m
        refine ⟨?_, ?_, ?_⟩
        · simp only []
          rw [if_neg (by omega), if_neg (by omega)]
          simp
        · simp only []
          rw [if_neg (by omega), if_pos (by omega)]
        · simp only []
          rw [if_neg (by omega), if_neg (by omega)]
          simp)
      (by omega)
      (fun m hm => absurd hm (by omega))
      rfl⟩

end Clite.Claims

namespace Clite.Claims

/-- C3: for the deadline-bound Suno poll (generateSongs with wait_audio
true), on every scripted sequence of feed reads none of which is terminal,
the loop gives up at the 100-second wall-clock deadline and returns the
last read performed, normalized, as an ordinary ok value — not an error:
the returned value is read j for some j, the final script position shows
read j was the last read issued, and the final clock is past the
deadline. -/
theorem C3_theorem :
    ∀ (script : Nat → Suno.SunoResponse) (rand : Nat → Nat) (s : Suno.SunoState)
      (sid : String) (clips : List Suno.RawClip) (reads : Nat → List Suno.RawClip),
      s.sid = some sid →
      script 0 ≠ .httpError →
      script 1 = .generateResp clips →
      (∀ m, script (2 + 3 * m) ≠ .httpError ∧
        script (2 + 3 * m + 1) = .feed (reads m) ∧
        script (2 + 3 * m + 2) ≠ .httpError) →
      (∀ m, Suno.terminalRead (reads m) = false) →
      ∃ j c', Suno.generateSongs script rand true (Suno.initCtx s) =
        RRes.ok ((reads j).map Suno.normalizeGetClip) c' ∧
        c'.scriptIdx = 2 + 3 * (j + 1) ∧ 100000 ≤ c'.now :=
  fun script rand s sid clips reads hsid h0 h1 hscript hall =>
    Suno.generateSongs_deadline script rand s sid clips reads hsid h0 h1 hscript hall

/-- C3 witness: the deadline return at a concrete script whose every feed
read is a single clip in the non-terminal status queued: generateSongs
returns that read normalized, as an ok value, with the clock past 100
seconds. -/
theorem C3_witness :
    ∃ j c', Suno.generateSongs
        (fun i => if i = 1 then
            Suno.SunoResponse.generateResp [⟨"seed", none, none, none, none, "t0", "m0",
              "submitted", ⟨none, none, none, none, none, none⟩⟩]
          else if (i - 2) % 3 = 1 then
            Suno.SunoResponse.feed [⟨"c1", none, none, none, none, "t1", "m1", "queued",
              ⟨none, none, none, none, none, none⟩⟩]
          else Suno.SunoResponse.clerkToken "jwt")
        (fun _ => 0) true (Suno.initCtx ⟨some "sid0", none, none⟩) =
      RRes.ok ([Suno.RawClip.mk "c1" none none none none "t1" "m1" "queued"
          ⟨none, none, none, none, none, none⟩].map Suno.normalizeGetClip) c' ∧
      c'.scriptIdx = 2 + 3 * (j + 1) ∧ 100000 ≤ c'.now :=
  C3_theorem
    (fun i => if i = 1 then
        Suno.SunoResponse.generateResp [⟨"seed", none, none, none, none, "t0", "m0",
          "submitted", ⟨none, none, none, none, none, none⟩⟩]
      else if (i - 2) % 3 = 1 then
        Suno.SunoResponse.feed [⟨"c1", none, none, none, none, "t1", "m1", "queued",
          ⟨none, none, none, none, none, none⟩⟩]
      else Suno.SunoResponse.clerkToken "jwt")
    (fun _ => 0) ⟨some "sid0", none, none⟩ "sid0"
    [⟨"seed", none, none, none, none, "t0", "m0", "submitted",
      ⟨none, none, none, none, none, none⟩⟩]
    (fun _ => [⟨"c1", none, none, none, none, "t1", "m1", "queued",
      ⟨none, none, none, none, none, none⟩⟩])
    rfl (by decide) rfl
    (by
      intro m
      refine ⟨?_, ?_, ?_⟩
      · simp only []
        rw [if_neg (by omega), if_neg (by omega)]
        simp
      · simp only []
        rw [if_neg (by omega), if_pos (by omega)]
      · simp only []
        rw [if_neg (by omega), if_neg (by omega)]
        simp)
    (fun _ => rfl)

end Clite.Claims
